import Mathlib

/-!
Shallow embedding of the gguf-rs GGUF decoder in Lean 4.

The repository contains several decoder variants; they are embedded in
separate namespaces mirroring the source files:
* `Gguf.MetaRs`  — the `metadata.rs` / `config.rs` / `tensors.rs` / `model.rs`
  family (`GgufHeader::parse`, `GgufReader::read_value`,
  `extract_model_config`, `TensorLoader`, `ModelBuilder`).
* `Gguf.HeaderRs` — the `error.rs` / `header.rs` / `tensor.rs` family
  (`GGUFHeader::read`, `read_metadata_kv`, `read_typed_value`,
  `TensorInfo::read`, `validate_tensor_name`, `read_gguf_string`).

Byte sources are `List Nat` (each element a byte value < 256 for inputs built
by the encoders below).  Machine integers are `Nat` with explicit `% 2 ^ w`
where wrap-around matters.  Rust `String`s are Lean `String`s obtained through
an explicit UTF-8 decoder; Rust `str::len` (byte length) is
`String.utf8ByteSize`.  Float payloads are kept as raw little-endian bit
patterns (`Nat`); numeric float conversion is outside the decoded structure.
-/

namespace Gguf

/-- A sequential byte source: the bytes not yet consumed. -/
abbrev Bytes := List Nat

/-- Take exactly `n` bytes from the front, or fail (models `Read::read_exact`). -/
def takeBytes (n : Nat) (bs : Bytes) : Option (List Nat × Bytes) :=
  if n ≤ bs.length then some (bs.take n, bs.drop n) else none

/-- Little-endian value of a byte list (first byte least significant). -/
def leVal : List Nat → Nat
  | [] => 0
  | b :: r => b + 256 * leVal r

/-- Little-endian encoding of `n` into exactly `w` bytes. -/
def leBytes : Nat → Nat → List Nat
  | 0, _ => []
  | w + 1, n => n % 256 :: leBytes w (n / 256)

/-- 8-byte little-endian encoding (`u64`). -/
def enc64 (n : Nat) : List Nat := leBytes 8 n

/-- 4-byte little-endian encoding (`u32`). -/
def enc32 (n : Nat) : List Nat := leBytes 4 n

theorem leBytes_length (w n : Nat) : (leBytes w n).length = w := by
  induction w generalizing n with
  | zero => rfl
  | succ w ih => simp [leBytes, ih]

theorem leVal_leBytes (w n : Nat) : leVal (leBytes w n) = n % 256 ^ w := by
  induction w generalizing n with
  | zero => simp [leBytes, leVal, Nat.mod_one]
  | succ w ih =>
      simp only [leBytes, leVal, ih]
      rw [Nat.pow_succ, Nat.mul_comm (256 ^ w) 256, Nat.mod_mul]

theorem takeBytes_append (xs rest : List Nat) :
    takeBytes xs.length (xs ++ rest) = some (xs, rest) := by
  simp [takeBytes, List.take_append, List.drop_append]

/-- Reinterpret an unsigned `w`-bit value as a signed integer
(two's complement), as Rust's `as i8` / `as i16` / … casts do. -/
def toSigned (w n : Nat) : Int :=
  if n < 2 ^ (w - 1) then (n : Int) else (n : Int) - 2 ^ w

/-- One step of UTF-8 decoding with explicit fuel (the fuel only bounds the
byte count and is supplied as the input length by `utf8Decode`; the fuel-0
fallback is unreachable from the wrapper). -/
def utf8Go : Nat → List Nat → Option (List Char)
  | 0, bs => if bs.isEmpty then some [] else none
  | f + 1, bs =>
    match bs with
    | [] => some []
    | b :: r =>
      if b < 0x80 then
        (utf8Go f r).map (fun cs => Char.ofNat b :: cs)
      else if b < 0xC2 then none
      else if b < 0xE0 then
        match r with
        | c :: r' =>
          if 0x80 ≤ c ∧ c < 0xC0 then
            (utf8Go f r').map (fun cs => Char.ofNat ((b - 0xC0) * 64 + (c - 0x80)) :: cs)
          else none
        | [] => none
      else if b < 0xF0 then
        match r with
        | c :: d :: r' =>
          if 0x80 ≤ c ∧ c < 0xC0 ∧ 0x80 ≤ d ∧ d < 0xC0 then
            let cp := (b - 0xE0) * 4096 + (c - 0x80) * 64 + (d - 0x80)
            if 0x800 ≤ cp ∧ ¬(0xD800 ≤ cp ∧ cp ≤ 0xDFFF) then
              (utf8Go f r').map (fun cs => Char.ofNat cp :: cs)
            else none
          else none
        | _ => none
      else if b < 0xF5 then
        match r with
        | c :: d :: e :: r' =>
          if 0x80 ≤ c ∧ c < 0xC0 ∧ 0x80 ≤ d ∧ d < 0xC0 ∧ 0x80 ≤ e ∧ e < 0xC0 then
            let cp := (b - 0xF0) * 262144 + (c - 0x80) * 4096 + (d - 0x80) * 64 + (e - 0x80)
            if 0x10000 ≤ cp ∧ cp ≤ 0x10FFFF then
              (utf8Go f r').map (fun cs => Char.ofNat cp :: cs)
            else none
          else none
        | _ => none
      else none

/-- Decode a UTF-8 byte sequence to a list of characters
(models Rust's `String::from_utf8`): rejects stray continuation bytes,
overlong encodings, surrogate code points and values above `0x10FFFF`. -/
def utf8Decode (bs : List Nat) : Option (List Char) := utf8Go bs.length bs

/-- UTF-8 encode a string as its Rust byte representation; on the ASCII
strings used below this is just the list of code points. -/
def asciiBytes (s : String) : List Nat := s.data.map Char.toNat

/-- The decimal digits of `n`, most significant first (the characters Rust's
`Display` for unsigned integers produces under `format!("{}", n)`). -/
def decChars (n : Nat) : List Char :=
  if h : n < 10 then [Char.ofNat (48 + n)]
  else decChars (n / 10) ++ [Char.ofNat (48 + n % 10)]
decreasing_by exact Nat.div_lt_self (by omega) (by omega)

/-- Decimal rendering of an unsigned integer, as `format!("{}", n)` yields. -/
def natDec (n : Nat) : String := ⟨decChars n⟩

/-- The per-layer tensor names of `ModelBuilder::build_transformer_block`:
`format!("blk.{}", layer_idx)` followed by `format!("{}{}", prefix, suffix)`
for the eleven claimed suffixes. -/
def blkName (i : Nat) (suffix : String) : String :=
  ("blk." ++ natDec i) ++ suffix

/-! ## The `metadata.rs` / `config.rs` / `tensors.rs` / `model.rs` variant -/

namespace MetaRs

/-- `GgufError` from `metadata.rs`.  The `Io` and `InvalidUtf8` payloads
(an `io::Error` / `FromUtf8Error`) carry no information used by the library,
so they are dropped here. -/
inductive GgufError where
  | io : GgufError
  | invalidFormat (msg : String) : GgufError
  | unsupported (msg : String) : GgufError
  | invalidUtf8 : GgufError
deriving DecidableEq, Repr

/-- Display of a `GgufError`, as used when an error is interpolated into
another error's message (`fmt::Display for GgufError`).  The inner text of an
I/O short read is fixed to Rust's standard `read_exact` message. -/
def GgufError.display : GgufError → String
  | .io => "I/O error: failed to fill whole buffer"
  | .invalidFormat m => "Invalid GGUF format: " ++ m
  | .unsupported m => "Unsupported feature: " ++ m
  | .invalidUtf8 => "Invalid UTF-8"

/-- `read_u8` from `metadata.rs`: short read is an `Io` error. -/
def readU8 (bs : Bytes) : Except GgufError (Nat × Bytes) :=
  match bs with
  | b :: r => .ok (b, r)
  | [] => .error .io

/-- `read_u16_le` from `metadata.rs`. -/
def readU16 (bs : Bytes) : Except GgufError (Nat × Bytes) :=
  match takeBytes 2 bs with
  | some (c, r) => .ok (leVal c, r)
  | none => .error .io

/-- `read_u32_le` from `metadata.rs`. -/
def readU32 (bs : Bytes) : Except GgufError (Nat × Bytes) :=
  match takeBytes 4 bs with
  | some (c, r) => .ok (leVal c, r)
  | none => .error .io

/-- `read_u64_le` from `metadata.rs`. -/
def readU64 (bs : Bytes) : Except GgufError (Nat × Bytes) :=
  match takeBytes 8 bs with
  | some (c, r) => .ok (leVal c, r)
  | none => .error .io

/-- `reader.read_exact(&mut buf)` on a buffer of length `n`. -/
def readExact (n : Nat) (bs : Bytes) : Except GgufError (List Nat × Bytes) :=
  match takeBytes n bs with
  | some (c, r) => .ok (c, r)
  | none => .error .io

/-- `GGUF_MAGIC`: `'GGUF'` in little-endian. -/
def GGUF_MAGIC : Nat := 0x46554747

/-- One uppercase hexadecimal digit. -/
def hexDigit (n : Nat) : Char :=
  if n < 10 then Char.ofNat (48 + n) else Char.ofNat (55 + n)

/-- Rust's `{:08X}` formatting of a `u32`. -/
def hex8 (n : Nat) : String :=
  ⟨[hexDigit (n / 16 ^ 7 % 16), hexDigit (n / 16 ^ 6 % 16), hexDigit (n / 16 ^ 5 % 16),
    hexDigit (n / 16 ^ 4 % 16), hexDigit (n / 16 ^ 3 % 16), hexDigit (n / 16 ^ 2 % 16),
    hexDigit (n / 16 % 16), hexDigit (n % 16)]⟩

/-- `GgufHeader` from `metadata.rs`. -/
structure GgufHeader where
  magic : Nat
  version : Nat
  nTensors : Nat
  nKv : Nat
deriving DecidableEq, Repr

/-- `GgufHeader::parse`: magic (validated), version, tensor count, kv count.
Returns the header together with the unconsumed bytes. -/
def GgufHeader.parse (bs : Bytes) : Except GgufError (GgufHeader × Bytes) := do
  let (magic, bs) ← readU32 bs
  if magic ≠ GGUF_MAGIC then
    throw (.invalidFormat ("Invalid magic number. Expected 0x" ++ hex8 GGUF_MAGIC ++
      ", got 0x" ++ hex8 magic))
  else do
    let (version, bs) ← readU32 bs
    let (nTensors, bs) ← readU64 bs
    let (nKv, bs) ← readU64 bs
    return ({ magic, version, nTensors, nKv }, bs)

/-- `GgufHeader::is_version_supported`. -/
def GgufHeader.isVersionSupported (h : GgufHeader) : Bool :=
  1 ≤ h.version && h.version ≤ 3

/-- `ValueType` from `metadata.rs`. -/
inductive ValueType where
  | uint8 | int8 | uint16 | int16 | uint32 | int32 | float32
  | bool | string | array | uint64 | int64 | float64
deriving DecidableEq, Repr

/-- `ValueType::from_u32`. -/
def ValueType.fromU32 : Nat → Option ValueType
  | 0 => some .uint8
  | 1 => some .int8
  | 2 => some .uint16
  | 3 => some .int16
  | 4 => some .uint32
  | 5 => some .int32
  | 6 => some .float32
  | 7 => some .bool
  | 8 => some .string
  | 9 => some .array
  | 10 => some .uint64
  | 11 => some .int64
  | 12 => some .float64
  | _ => none

/-- `Value` from `metadata.rs`.  Unsigned payloads are `Nat`, signed payloads
are `Int`; float payloads keep their little-endian bit patterns. -/
inductive Value where
  | uint8 (n : Nat)
  | int8 (n : Int)
  | uint16 (n : Nat)
  | int16 (n : Int)
  | uint32 (n : Nat)
  | int32 (n : Int)
  | float32 (bits : Nat)
  | bool (b : Bool)
  | string (s : String)
  | array (et : ValueType) (elems : List Value)
  | uint64 (n : Nat)
  | int64 (n : Int)
  | float64 (bits : Nat)

/-- `Value::value_type`. -/
def Value.valueType : Value → ValueType
  | .uint8 _ => .uint8
  | .int8 _ => .int8
  | .uint16 _ => .uint16
  | .int16 _ => .int16
  | .uint32 _ => .uint32
  | .int32 _ => .int32
  | .float32 _ => .float32
  | .bool _ => .bool
  | .string _ => .string
  | .array _ _ => .array
  | .uint64 _ => .uint64
  | .int64 _ => .int64
  | .float64 _ => .float64

/-- `Value::as_string`. -/
def Value.asString : Value → Option String
  | .string s => some s
  | _ => none

/-- `Value::as_bool`. -/
def Value.asBool : Value → Option Bool
  | .bool b => some b
  | _ => none

/-- `Value::as_u64`: only the four unsigned variants widen to `u64`. -/
def Value.asU64 : Value → Option Nat
  | .uint64 n => some n
  | .uint32 n => some n
  | .uint16 n => some n
  | .uint8 n => some n
  | _ => none

/-- `Value::as_i64`. -/
def Value.asI64 : Value → Option Int
  | .int64 n => some n
  | .int32 n => some n
  | .int16 n => some n
  | .int8 n => some n
  | _ => none

/-- `Value::as_f64` (bit-pattern level: the `f32 as f64` numeric conversion
is a pure well-known function outside this embedding's scope, so the payload
is passed through). -/
def Value.asF64 : Value → Option Nat
  | .float64 bits => some bits
  | .float32 bits => some bits
  | _ => none

/-- One unfolding of `GgufReader::read_value` from `metadata.rs`, with the
recursive call abstracted as `recur`.  Note that the source places no
restriction on an array's element type: an element type of `Array` recurses
like any other. -/
def readValueStep (recur : ValueType → Bytes → Except GgufError (Value × Bytes))
    (valueType : ValueType) (bs : Bytes) : Except GgufError (Value × Bytes) :=
  match valueType with
  | .uint8 => do
      let (n, bs) ← readU8 bs
      return (.uint8 n, bs)
  | .int8 => do
      let (n, bs) ← readU8 bs
      return (.int8 (toSigned 8 n), bs)
  | .uint16 => do
      let (n, bs) ← readU16 bs
      return (.uint16 n, bs)
  | .int16 => do
      let (n, bs) ← readU16 bs
      return (.int16 (toSigned 16 n), bs)
  | .uint32 => do
      let (n, bs) ← readU32 bs
      return (.uint32 n, bs)
  | .int32 => do
      let (n, bs) ← readU32 bs
      return (.int32 (toSigned 32 n), bs)
  | .float32 => do
      let (n, bs) ← readU32 bs
      return (.float32 n, bs)
  | .bool => do
      let (n, bs) ← readU8 bs
      return (.bool (n ≠ 0), bs)
  | .string => do
      let (len, bs) ← readU64 bs
      let (stringBytes, bs) ← readExact len bs
      match utf8Decode stringBytes with
      | some cs => return (.string ⟨cs⟩, bs)
      | none => throw .invalidUtf8
  | .array => do
      let (elementTypeId, bs) ← readU32 bs
      match ValueType.fromU32 elementTypeId with
      | none =>
          throw (.unsupported ("Unknown array element type ID: " ++ toString elementTypeId))
      | some elementType => do
          let (count, bs) ← readU64 bs
          let (elems, bs) ← readElemsGo (recur elementType) count bs
          return (.array elementType elems, bs)
  | .uint64 => do
      let (n, bs) ← readU64 bs
      return (.uint64 n, bs)
  | .int64 => do
      let (n, bs) ← readU64 bs
      return (.int64 (toSigned 64 n), bs)
  | .float64 => do
      let (n, bs) ← readU64 bs
      return (.float64 n, bs)
where
  /-- The element loop: `count` repetitions of the element reader. -/
  readElemsGo (rd : Bytes → Except GgufError (Value × Bytes)) :
      Nat → Bytes → Except GgufError (List Value × Bytes)
    | 0, bs => .ok ([], bs)
    | count + 1, bs => do
        let (v, bs) ← rd bs
        let (vs, bs) ← readElemsGo rd count bs
        return (v :: vs, bs)

/-- `GgufReader::read_value` from `metadata.rs`.  The `fuel` argument only
bounds the nesting depth of `Array` values (the Rust recursion is bounded by
the input length); every theorem below supplies sufficient fuel, and the
fuel-exhaustion fallback never fires in them. -/
def readValue : Nat → ValueType → Bytes → Except GgufError (Value × Bytes)
  | 0 => readValueStep fun _ _ => throw (.invalidFormat "recursion limit")
  | fuel + 1 => readValueStep (readValue fuel)

/-- `TensorType` from `metadata.rs`. -/
inductive TensorType where
  | F32 | F16 | Q40 | Q41 | Q50 | Q51 | Q80 | Q81
  | Q2K | Q3K | Q4K | Q5K | Q6K | Q8K
  | Iq2Xxs | Iq2Xs | Iq3Xxs | Iq1S | Iq4Nl | Iq3S | Iq2S | Iq4Xs
  | I8 | I16 | I32 | I64 | F64 | Iq1M
deriving DecidableEq, Repr

/-- `TensorType::from_u32` (ids 4 and 5 are absent from the table). -/
def TensorType.fromU32 : Nat → Option TensorType
  | 0 => some .F32
  | 1 => some .F16
  | 2 => some .Q40
  | 3 => some .Q41
  | 6 => some .Q50
  | 7 => some .Q51
  | 8 => some .Q80
  | 9 => some .Q81
  | 10 => some .Q2K
  | 11 => some .Q3K
  | 12 => some .Q4K
  | 13 => some .Q5K
  | 14 => some .Q6K
  | 15 => some .Q8K
  | 16 => some .Iq2Xxs
  | 17 => some .Iq2Xs
  | 18 => some .Iq3Xxs
  | 19 => some .Iq1S
  | 20 => some .Iq4Nl
  | 21 => some .Iq3S
  | 22 => some .Iq2S
  | 23 => some .Iq4Xs
  | 24 => some .I8
  | 25 => some .I16
  | 26 => some .I32
  | 27 => some .I64
  | 28 => some .F64
  | 29 => some .Iq1M
  | _ => none

/-- `TensorInfo` from `tensors.rs`. -/
structure TensorInfo where
  name : String
  nDims : Nat
  dims : List Nat
  tensorType : TensorType
  offset : Nat
deriving DecidableEq, Repr

/-- `TensorInfo::element_count`: `self.dims.iter().product()` over `u64`
(wrap-around made explicit with `% 2 ^ 64`; an empty product is 1). -/
def TensorInfo.elementCount (t : TensorInfo) : Nat :=
  t.dims.foldl (fun acc d => acc * d % 2 ^ 64) 1

/-- `TensorInfo::byte_size`: element count times per-type element size for the
directly supported types, 0 for quantized types. -/
def TensorInfo.byteSize (t : TensorInfo) : Nat :=
  match t.tensorType with
  | .F32 => t.elementCount * 4 % 2 ^ 64
  | .F16 => t.elementCount * 2 % 2 ^ 64
  | .I32 => t.elementCount * 4 % 2 ^ 64
  | .I16 => t.elementCount * 2 % 2 ^ 64
  | .I8 => t.elementCount * 1 % 2 ^ 64
  | .F64 => t.elementCount * 8 % 2 ^ 64
  | .I64 => t.elementCount * 8 % 2 ^ 64
  | _ => 0

/-- `TensorInfo::is_supported`. -/
def TensorInfo.isSupported (t : TensorInfo) : Bool :=
  match t.tensorType with
  | .F32 | .F16 | .I32 | .I16 | .I8 | .F64 | .I64 => true
  | _ => false

/-- One iteration of `TensorLoader::read_tensor_info`: name length, name
bytes (UTF-8 validated, no length bound of any kind), dimension count,
dimensions, type id (via `TensorType::from_u32`), offset. -/
def readOneTensorInfo (tensorIndex : Nat) (bs : Bytes) :
    Except GgufError (TensorInfo × Bytes) := do
  let (nameLen, bs) ←
    match readU64 bs with
    | .ok r => .ok r
    | .error e =>
        .error (.invalidFormat ("Error reading tensor name length for tensor " ++
          toString tensorIndex ++ ": " ++ e.display))
  let (nameBytes, bs) ← readExact nameLen bs
  match utf8Decode nameBytes with
  | none => throw .invalidUtf8
  | some cs =>
    let name : String := ⟨cs⟩
    let (nDims, bs) ←
      match readU32 bs with
      | .ok r => .ok r
      | .error e =>
          .error (.invalidFormat ("Error reading n_dims for tensor '" ++ name ++
            "': " ++ e.display))
    let (dims, bs) ← readDims name nDims bs
    let (tensorTypeId, bs) ←
      match readU32 bs with
      | .ok r => .ok r
      | .error e =>
          .error (.invalidFormat ("Error reading tensor type for tensor '" ++ name ++
            "': " ++ e.display))
    match TensorType.fromU32 tensorTypeId with
    | none =>
        throw (.unsupported ("Unknown tensor type ID " ++ toString tensorTypeId ++
          " for tensor '" ++ name ++ "'"))
    | some tensorType => do
      let (offset, bs) ←
        match readU64 bs with
        | .ok r => .ok r
        | .error e =>
            .error (.invalidFormat ("Error reading offset for tensor '" ++ name ++
              "': " ++ e.display))
      return ({ name, nDims, dims, tensorType, offset }, bs)
where
  /-- The dimension-reading loop (dimension index elided from the error
  message plumbing). -/
  readDims (name : String) : Nat → Bytes → Except GgufError (List Nat × Bytes)
    | 0, bs => .ok ([], bs)
    | n + 1, bs => do
        let (d, bs) ←
          match readU64 bs with
          | .ok r => .ok r
          | .error e =>
              .error (.invalidFormat ("Error reading dimension for tensor '" ++ name ++
                "': " ++ e.display))
        let (ds, bs) ← readDims name n bs
        return (d :: ds, bs)

/-- `TensorLoader::read_tensor_info`: read `n_tensors` tensor descriptors in
order. -/
def readTensorInfo (nTensors : Nat) (bs : Bytes) :
    Except GgufError (List TensorInfo × Bytes) :=
  go nTensors 0 bs
where
  go : Nat → Nat → Bytes → Except GgufError (List TensorInfo × Bytes)
    | 0, _, bs => .ok ([], bs)
    | n + 1, idx, bs => do
        let (t, bs) ← readOneTensorInfo idx bs
        let (ts, bs) ← go n (idx + 1) bs
        return (t :: ts, bs)

/-- A loaded tensor (`Tensor` from `tensors.rs`): metadata plus raw bytes. -/
structure Tensor where
  info : TensorInfo
  data : List Nat
deriving DecidableEq, Repr

/-- A decoded metadata mapping (`HashMap<String, Value>`), used read-only by
the config extractor, modelled as its lookup function. -/
abbrev Metadata := String → Option Value

/-- `ModelConfig` from `model.rs`.  The two optional float fields keep their
`f64` bit patterns (numeric `as f32` narrowing is out of scope). -/
structure ModelConfig where
  architecture : String
  blockCount : Nat
  contextLength : Nat
  embeddingLength : Nat
  feedForwardLength : Nat
  attentionHeadCount : Nat
  attentionHeadCountKv : Option Nat
  attentionKeyLength : Option Nat
  layerNormEpsilon : Option Nat
  ropeFreqBase : Option Nat

/-- `get_u32_field` from `config.rs`: lookup, `as_u64`, then `v as u32`
(truncation modulo `2 ^ 32`); absence or a non-`as_u64` value is an
`InvalidFormat` error naming the key. -/
def getU32Field (metadata : Metadata) (key : String) : Except GgufError Nat :=
  match (metadata key).bind Value.asU64 with
  | some v => .ok (v % 2 ^ 32)
  | none => .error (.invalidFormat ("Missing or invalid field: " ++ key))

/-- `get_optional_u32_field` from `config.rs`. -/
def getOptionalU32Field (metadata : Metadata) (key : String) : Option Nat :=
  ((metadata key).bind Value.asU64).map (· % 2 ^ 32)

/-- `get_optional_f32_field` from `config.rs` (bit-pattern level). -/
def getOptionalF32Field (metadata : Metadata) (key : String) : Option Nat :=
  (metadata key).bind Value.asF64

/-- `extract_model_config` from `config.rs`. -/
def extractModelConfig (metadata : Metadata) : Except GgufError ModelConfig := do
  let architecture ←
    match (metadata "general.architecture").bind Value.asString with
    | some s => .ok s
    | none => .error (.invalidFormat "Missing general.architecture")
  let blockCount ← getU32Field metadata (architecture ++ ".block_count")
  let contextLength ← getU32Field metadata (architecture ++ ".context_length")
  let embeddingLength ← getU32Field metadata (architecture ++ ".embedding_length")
  let feedForwardLength ← getU32Field metadata (architecture ++ ".feed_forward_length")
  let attentionHeadCount ← getU32Field metadata (architecture ++ ".attention.head_count")
  let attentionHeadCountKv :=
    getOptionalU32Field metadata (architecture ++ ".attention.head_count_kv")
  let attentionKeyLength :=
    getOptionalU32Field metadata (architecture ++ ".attention.key_length")
  let layerNormEpsilon :=
    getOptionalF32Field metadata (architecture ++ ".attention.layer_norm_rms_epsilon")
  let ropeFreqBase :=
    getOptionalF32Field metadata (architecture ++ ".rope.freq_base")
  return { architecture, blockCount, contextLength, embeddingLength,
           feedForwardLength, attentionHeadCount, attentionHeadCountKv,
           attentionKeyLength, layerNormEpsilon, ropeFreqBase }

/-! ### `model.rs`: the model assembler -/

/-- `EmbeddingLayer` from `model.rs`. -/
structure EmbeddingLayer where
  tokenEmbeddings : Tensor

/-- `OutputLayer` from `model.rs`. -/
structure OutputLayer where
  outputWeights : Tensor
  outputNorm : Option Tensor

/-- `AttentionLayer` from `model.rs`. -/
structure AttentionLayer where
  queryWeights : Tensor
  keyWeights : Tensor
  valueWeights : Tensor
  outputWeights : Tensor
  queryNorm : Option Tensor
  keyNorm : Option Tensor
  attentionNorm : Option Tensor

/-- `FeedForwardLayer` from `model.rs`. -/
structure FeedForwardLayer where
  gateWeights : Option Tensor
  upWeights : Tensor
  downWeights : Tensor
  ffnNorm : Option Tensor

/-- `FeedForwardLayer::is_gated`. -/
def FeedForwardLayer.isGated (l : FeedForwardLayer) : Bool :=
  l.gateWeights.isSome

/-- `TransformerBlock` from `model.rs`. -/
structure TransformerBlock where
  layerIndex : Nat
  attention : AttentionLayer
  feedForward : FeedForwardLayer

/-- `Model` from `model.rs`. -/
structure Model where
  architecture : String
  config : ModelConfig
  embeddings : EmbeddingLayer
  transformerBlocks : List TransformerBlock
  outputLayer : OutputLayer

/-- `Model::num_layers`. -/
def Model.numLayers (m : Model) : Nat := m.transformerBlocks.length

/-- The builder's flat tensor mapping (`HashMap<String, Tensor>`), modelled
as its lookup function; `remove` erases a key. -/
abbrev TensorMap := String → Option Tensor

/-- `HashMap::remove`'s effect on the mapping. -/
def TensorMap.erase (m : TensorMap) (name : String) : TensorMap :=
  fun n => if n = name then none else m n

/-- `ModelBuilder::take_tensor`: remove a required tensor or fail naming it. -/
def takeTensor (m : TensorMap) (name : String) :
    Except GgufError (Tensor × TensorMap) :=
  match m name with
  | some t => .ok (t, m.erase name)
  | none => .error (.invalidFormat ("Required tensor '" ++ name ++ "' not found"))

/-- `ModelBuilder::try_take_tensor`: remove an optional tensor. -/
def tryTakeTensor (m : TensorMap) (name : String) : Option Tensor × TensorMap :=
  (m name, m.erase name)

/-- `ModelBuilder::build_embeddings`. -/
def buildEmbeddings (m : TensorMap) :
    Except GgufError (EmbeddingLayer × TensorMap) := do
  let (tokenEmbeddings, m) ← takeTensor m "token_embd.weight"
  return ({ tokenEmbeddings }, m)

/-- `ModelBuilder::build_transformer_block`, claiming tensors in the order the
struct literals evaluate them. -/
def buildTransformerBlock (layerIdx : Nat) (m : TensorMap) :
    Except GgufError (TransformerBlock × TensorMap) := do
  let (queryWeights, m) ← takeTensor m (blkName layerIdx ".attn_q.weight")
  let (keyWeights, m) ← takeTensor m (blkName layerIdx ".attn_k.weight")
  let (valueWeights, m) ← takeTensor m (blkName layerIdx ".attn_v.weight")
  let (outputWeights, m) ← takeTensor m (blkName layerIdx ".attn_output.weight")
  let (queryNorm, m) := tryTakeTensor m (blkName layerIdx ".attn_q_norm.weight")
  let (keyNorm, m) := tryTakeTensor m (blkName layerIdx ".attn_k_norm.weight")
  let (attentionNorm, m) := tryTakeTensor m (blkName layerIdx ".attn_norm.weight")
  let (gateWeights, m) := tryTakeTensor m (blkName layerIdx ".ffn_gate.weight")
  let (upWeights, m) ← takeTensor m (blkName layerIdx ".ffn_up.weight")
  let (downWeights, m) ← takeTensor m (blkName layerIdx ".ffn_down.weight")
  let (ffnNorm, m) := tryTakeTensor m (blkName layerIdx ".ffn_norm.weight")
  return ({ layerIndex := layerIdx,
            attention := { queryWeights, keyWeights, valueWeights, outputWeights,
                           queryNorm, keyNorm, attentionNorm },
            feedForward := { gateWeights, upWeights, downWeights, ffnNorm } }, m)

/-- The `for i in 0..block_count` loop of `ModelBuilder::build`, starting at
layer index `idx` with `n` blocks left to build. -/
def buildBlocks : Nat → Nat → TensorMap → Except GgufError (List TransformerBlock × TensorMap)
  | _, 0, m => .ok ([], m)
  | idx, n + 1, m => do
      let (b, m) ← buildTransformerBlock idx m
      let (bs, m) ← buildBlocks (idx + 1) n m
      return (b :: bs, m)

/-- `ModelBuilder::build_output_layer`. -/
def buildOutputLayer (m : TensorMap) :
    Except GgufError (OutputLayer × TensorMap) := do
  let (outputWeights, m) ← takeTensor m "output.weight"
  let (outputNorm, m) := tryTakeTensor m "output_norm.weight"
  return ({ outputWeights, outputNorm }, m)

/-- `ModelBuilder::build`: embeddings, then `block_count` transformer blocks,
then the output layer, consuming the mapping by removal. -/
def build (config : ModelConfig) (tensors : TensorMap) : Except GgufError Model := do
  let (embeddings, m) ← buildEmbeddings tensors
  let (transformerBlocks, m) ← buildBlocks 0 config.blockCount m
  let (outputLayer, _) ← buildOutputLayer m
  return { architecture := config.architecture, config, embeddings,
           transformerBlocks, outputLayer }

end MetaRs

/-! ## The `error.rs` / `header.rs` / `tensor.rs` variant -/

namespace HeaderRs

/-- `GGUFError` from `error.rs` (the `Io` payload is dropped). -/
inductive GGUFError where
  | invalidMagic : GGUFError
  | unsupportedVersion (v : Nat) : GGUFError
  | invalidValueType (t : Nat) : GGUFError
  | invalidTensorType (t : Nat) : GGUFError
  | invalidAlignment (a : Nat) : GGUFError
  | invalidString : GGUFError
  | invalidTensorName (name : String) : GGUFError
  | io : GGUFError
  | metadata (msg : String) : GGUFError
  | tensor (msg : String) : GGUFError
deriving DecidableEq, Repr

/-- `byteorder`'s `read_u8` (an I/O short read becomes `GGUFError::Io`). -/
def readU8 (bs : Bytes) : Except GGUFError (Nat × Bytes) :=
  match bs with
  | b :: r => .ok (b, r)
  | [] => .error .io

/-- `byteorder`'s `read_u16::<LittleEndian>` (also `read_i16` at bit level). -/
def readU16 (bs : Bytes) : Except GGUFError (Nat × Bytes) :=
  match takeBytes 2 bs with
  | some (c, r) => .ok (leVal c, r)
  | none => .error .io

/-- `byteorder`'s `read_u32::<LittleEndian>`. -/
def readU32 (bs : Bytes) : Except GGUFError (Nat × Bytes) :=
  match takeBytes 4 bs with
  | some (c, r) => .ok (leVal c, r)
  | none => .error .io

/-- `byteorder`'s `read_u64::<LittleEndian>`. -/
def readU64 (bs : Bytes) : Except GGUFError (Nat × Bytes) :=
  match takeBytes 8 bs with
  | some (c, r) => .ok (leVal c, r)
  | none => .error .io

/-- `reader.read_exact` on a buffer of length `n`. -/
def readExact (n : Nat) (bs : Bytes) : Except GGUFError (List Nat × Bytes) :=
  match takeBytes n bs with
  | some (c, r) => .ok (c, r)
  | none => .error .io

/-- Modelled from the spec: `MetadataValueType` from the `metadata` module this
variant imports, which is missing from `src/`; §6 fixes value-type ids 0–12 in
order {uint8, int8, uint16, int16, uint32, int32, float32, bool, string,
array, uint64, int64, float64}. -/
inductive MetadataValueType where
  | uint8 | int8 | uint16 | int16 | uint32 | int32 | float32
  | bool | string | array | uint64 | int64 | float64
deriving DecidableEq, Repr

/-- Modelled from the spec: `MetadataValueType::try_from(u32)` of the missing
`metadata` module; §4.3 requires an unrecognized type id to fail, and
`error.rs` provides the `InvalidValueType(u32)` variant it maps to. -/
def MetadataValueType.tryFrom (n : Nat) : Except GGUFError MetadataValueType :=
  match n with
  | 0 => .ok .uint8
  | 1 => .ok .int8
  | 2 => .ok .uint16
  | 3 => .ok .int16
  | 4 => .ok .uint32
  | 5 => .ok .int32
  | 6 => .ok .float32
  | 7 => .ok .bool
  | 8 => .ok .string
  | 9 => .ok .array
  | 10 => .ok .uint64
  | 11 => .ok .int64
  | 12 => .ok .float64
  | _ => .error (.invalidValueType n)

/-- Modelled from the spec: `MetadataValue` of the missing `metadata` module,
with the variants and payloads `header.rs` constructs (its `Array` carries
just the items, as built at `header.rs` line 78).  Floats keep their
little-endian bit patterns. -/
inductive MetadataValue where
  | uint8 (n : Nat)
  | int8 (n : Int)
  | uint16 (n : Nat)
  | int16 (n : Int)
  | uint32 (n : Nat)
  | int32 (n : Int)
  | float32 (bits : Nat)
  | bool (b : Bool)
  | string (s : String)
  | array (items : List MetadataValue)
  | uint64 (n : Nat)
  | int64 (n : Int)
  | float64 (bits : Nat)

/-- Modelled from the spec: `MetadataValue::as_uint32` of the missing
`metadata` module, as used for the `general.alignment` lookup; it yields the
value only for the `UInt32` variant. -/
def MetadataValue.asUint32 : MetadataValue → Option Nat
  | .uint32 n => some n
  | _ => none

/-- Modelled from the spec: the `Metadata` mapping of the missing `metadata`
module (§3: string key to value, last write wins on duplicates).  `insert`
prepends and `get` finds the most recent entry. -/
def Metadata := List (String × MetadataValue)

/-- `Metadata::new()`. -/
def Metadata.new : Metadata := []

/-- `Metadata::insert` (last write wins). -/
def Metadata.insert (m : Metadata) (k : String) (v : MetadataValue) : Metadata :=
  (k, v) :: m

/-- `Metadata::get`. -/
def Metadata.get (m : Metadata) (k : String) : Option MetadataValue :=
  (List.find? (fun p => p.1 = k) m).map Prod.snd

/-- `read_gguf_string` from `tensor.rs`: `u64` length, 1 MiB sanity bound
checked before any allocation or read, then the bytes, UTF-8 validated. -/
def readGgufString (bs : Bytes) : Except GGUFError (String × Bytes) := do
  let (len, bs) ← readU64 bs
  if len > 1024 * 1024 then
    throw (.metadata "String too long")
  else do
    let (buf, bs) ← readExact len bs
    match utf8Decode buf with
    | some cs => return (⟨cs⟩, bs)
    | none => throw .invalidString

/-- `read_typed_value` from `header.rs`: one scalar array element; an element
type of `Array` is rejected ("Nested arrays not supported"). -/
def readTypedValue (valueType : MetadataValueType) (bs : Bytes) :
    Except GGUFError (MetadataValue × Bytes) :=
  match valueType with
  | .uint8 => do
      let (n, bs) ← readU8 bs
      return (.uint8 n, bs)
  | .int8 => do
      let (n, bs) ← readU8 bs
      return (.int8 (toSigned 8 n), bs)
  | .uint16 => do
      let (n, bs) ← readU16 bs
      return (.uint16 n, bs)
  | .int16 => do
      let (n, bs) ← readU16 bs
      return (.int16 (toSigned 16 n), bs)
  | .uint32 => do
      let (n, bs) ← readU32 bs
      return (.uint32 n, bs)
  | .int32 => do
      let (n, bs) ← readU32 bs
      return (.int32 (toSigned 32 n), bs)
  | .float32 => do
      let (n, bs) ← readU32 bs
      return (.float32 n, bs)
  | .bool => do
      let (n, bs) ← readU8 bs
      return (.bool (n ≠ 0), bs)
  | .string => do
      let (s, bs) ← readGgufString bs
      return (.string s, bs)
  | .uint64 => do
      let (n, bs) ← readU64 bs
      return (.uint64 n, bs)
  | .int64 => do
      let (n, bs) ← readU64 bs
      return (.int64 (toSigned 64 n), bs)
  | .float64 => do
      let (n, bs) ← readU64 bs
      return (.float64 n, bs)
  | .array => .error (.metadata "Nested arrays not supported")

/-- The `for _ in 0..len { items.push(read_typed_value(..)?) }` loop of
`read_metadata_kv`'s `Array` case. -/
def readTypedList (arrayType : MetadataValueType) :
    Nat → Bytes → Except GGUFError (List MetadataValue × Bytes)
  | 0, bs => .ok ([], bs)
  | n + 1, bs => do
      let (v, bs) ← readTypedValue arrayType bs
      let (vs, bs) ← readTypedList arrayType n bs
      return (v :: vs, bs)

/-- `read_metadata_kv` from `header.rs`: key string, value type id, value. -/
def readMetadataKv (bs : Bytes) :
    Except GGUFError ((String × MetadataValue) × Bytes) := do
  let (key, bs) ← readGgufString bs
  let (valueTypeId, bs) ← readU32 bs
  let (valueType, _) ← (MetadataValueType.tryFrom valueTypeId).map (·, ())
  match valueType with
  | .uint8 => do
      let (n, bs) ← readU8 bs
      return ((key, .uint8 n), bs)
  | .int8 => do
      let (n, bs) ← readU8 bs
      return ((key, .int8 (toSigned 8 n)), bs)
  | .uint16 => do
      let (n, bs) ← readU16 bs
      return ((key, .uint16 n), bs)
  | .int16 => do
      let (n, bs) ← readU16 bs
      return ((key, .int16 (toSigned 16 n)), bs)
  | .uint32 => do
      let (n, bs) ← readU32 bs
      return ((key, .uint32 n), bs)
  | .int32 => do
      let (n, bs) ← readU32 bs
      return ((key, .int32 (toSigned 32 n)), bs)
  | .float32 => do
      let (n, bs) ← readU32 bs
      return ((key, .float32 n), bs)
  | .bool => do
      let (n, bs) ← readU8 bs
      return ((key, .bool (n ≠ 0)), bs)
  | .string => do
      let (s, bs) ← readGgufString bs
      return ((key, .string s), bs)
  | .array => do
      let (arrayTypeVal, bs) ← readU32 bs
      let (arrayType, _) ← (MetadataValueType.tryFrom arrayTypeVal).map (·, ())
      let (len, bs) ← readU64 bs
      let (items, bs) ← readTypedList arrayType len bs
      return ((key, .array items), bs)
  | .uint64 => do
      let (n, bs) ← readU64 bs
      return ((key, .uint64 n), bs)
  | .int64 => do
      let (n, bs) ← readU64 bs
      return ((key, .int64 (toSigned 64 n)), bs)
  | .float64 => do
      let (n, bs) ← readU64 bs
      return ((key, .float64 n), bs)

/-- `GGUFHeader` from `header.rs`. -/
structure GGUFHeader where
  version : Nat
  tensorCount : Nat
  metadata : Metadata
  alignment : Nat

/-- The `for _ in 0..metadata_kv_count` loop of `GGUFHeader::read`. -/
def readKvs : Nat → Metadata → Bytes → Except GGUFError (Metadata × Bytes)
  | 0, m, bs => .ok (m, bs)
  | n + 1, m, bs => do
      let (kv, bs) ← readMetadataKv bs
      readKvs n (m.insert kv.1 kv.2) bs

/-- `GGUFHeader::read`: 4 magic bytes compared to `b"GGUF"`, version
(rejected unless exactly 3), tensor count, kv count, the metadata entries,
then the declared alignment (`general.alignment` as `u32`, default 32,
must be ≥ 8). -/
def GGUFHeader.read (bs : Bytes) : Except GGUFError (GGUFHeader × Bytes) := do
  let (magic, bs) ← readExact 4 bs
  if magic ≠ [71, 71, 85, 70] then
    throw .invalidMagic
  else do
    let (version, bs) ← readU32 bs
    if version ≠ 3 then
      throw (.unsupportedVersion version)
    else do
      let (tensorCount, bs) ← readU64 bs
      let (metadataKvCount, bs) ← readU64 bs
      let (metadata, bs) ← readKvs metadataKvCount Metadata.new bs
      let alignment := ((metadata.get "general.alignment").bind
        MetadataValue.asUint32).getD 32
      if alignment < 8 then
        throw (.invalidAlignment alignment)
      else
        return ({ version, tensorCount, metadata, alignment }, bs)

/-- `validate_tensor_name` from `tensor.rs`: Rust `str::is_empty` /
`str::len` are byte-level, hence `String.utf8ByteSize`. -/
def validateTensorName (name : String) : Except GGUFError Unit :=
  if name.utf8ByteSize = 0 ∨ name.utf8ByteSize > 64 then
    .error (.invalidTensorName name)
  else
    .ok ()

/-- `TensorInfo` from `tensor.rs` (the raw `u32` type id is kept as read). -/
structure TensorInfo where
  name : String
  dimensions : List Nat
  type_ : Nat
  offset : Nat

/-- The dimension-reading loop of `TensorInfo::read`. -/
def readDimensions : Nat → Bytes → Except GGUFError (List Nat × Bytes)
  | 0, bs => .ok ([], bs)
  | n + 1, bs => do
      let (d, bs) ← readU64 bs
      let (ds, bs) ← readDimensions n bs
      return (d :: ds, bs)

/-- `TensorInfo::read` from `tensor.rs`: name via `read_gguf_string`, then
`validate_tensor_name`, then dimension count, dimensions, type id, offset. -/
def TensorInfo.read (bs : Bytes) : Except GGUFError (TensorInfo × Bytes) := do
  let (name, bs) ← readGgufString bs
  let _ ← (validateTensorName name).map (·, ())
  let (nDims, bs) ← readU32 bs
  let (dimensions, bs) ← readDimensions nDims bs
  let (type_, bs) ← readU32 bs
  let (offset, bs) ← readU64 bs
  return ({ name, dimensions, type_, offset }, bs)

end HeaderRs

/-! ## Auxiliary definitions used by the statements below -/

/-- `Bool`-level classifier: is this result an `InvalidFormat` error? -/
def MetaRs.isInvalidFormatErr {α : Type} : Except MetaRs.GgufError α → Bool
  | .error (.invalidFormat _) => true
  | _ => false

/-- `Bool`-level classifier: is this result an `Unsupported` error? -/
def MetaRs.isUnsupportedErr {α : Type} : Except MetaRs.GgufError α → Bool
  | .error (.unsupported _) => true
  | _ => false

/-- The 4 magic bytes `b"GGUF"` with bit `k` (0-based, little-endian within
each byte) flipped. -/
def corruptMagic (k : Nat) : Bytes :=
  [if k / 8 = 0 then 71 ^^^ 2 ^ (k % 8) else 71,
   if k / 8 = 1 then 71 ^^^ 2 ^ (k % 8) else 71,
   if k / 8 = 2 then 85 ^^^ 2 ^ (k % 8) else 85,
   if k / 8 = 3 then 70 ^^^ 2 ^ (k % 8) else 70]

/-- The six required per-layer tensor-name suffixes of
`ModelBuilder::build_transformer_block`. -/
def requiredSuffixes : List String :=
  [".attn_q.weight", ".attn_k.weight", ".attn_v.weight", ".attn_output.weight",
   ".ffn_up.weight", ".ffn_down.weight"]

/-- All eleven per-layer tensor-name suffixes, in the order the builder
claims them. -/
def allSuffixes : List String :=
  [".attn_q.weight", ".attn_k.weight", ".attn_v.weight", ".attn_output.weight",
   ".attn_q_norm.weight", ".attn_k_norm.weight", ".attn_norm.weight",
   ".ffn_gate.weight", ".ffn_up.weight", ".ffn_down.weight", ".ffn_norm.weight"]

/-- Every tensor name `ModelBuilder::build` requires for `bc` blocks. -/
def requiredNames (bc : Nat) : List String :=
  "token_embd.weight" ::
    ((List.range bc).flatMap fun i => requiredSuffixes.map (blkName i)) ++
    ["output.weight"]

/-- A Qwen-style configuration with `block_count = 28`, for the C1 witness. -/
def cfg28 : MetaRs.ModelConfig :=
  ⟨"qwen3", 28, 40960, 1024, 3072, 16, none, none, none, none⟩

/-- A placeholder loaded tensor for the C1 witness mapping. -/
def demoTensor : MetaRs.Tensor := ⟨⟨"t", 1, [1], .F32, 0⟩, [0, 0, 0, 0]⟩

/-- A version-3 GGUF file whose sole metadata entry declares
`general.alignment` as `UInt32` value `a` (no tensors). -/
def alignFile (a : Nat) : Bytes :=
  [71, 71, 85, 70] ++ enc32 3 ++ enc64 0 ++ enc64 1 ++
    (enc64 17 ++ (asciiBytes "general.alignment" ++ (enc32 4 ++ enc32 a)))

/-- The type id of each `ValueType` (the left inverse of
`ValueType::from_u32`). -/
def MetaRs.ValueType.toU32 : MetaRs.ValueType → Nat
  | .uint8 => 0
  | .int8 => 1
  | .uint16 => 2
  | .int16 => 3
  | .uint32 => 4
  | .int32 => 5
  | .float32 => 6
  | .bool => 7
  | .string => 8
  | .array => 9
  | .uint64 => 10
  | .int64 => 11
  | .float64 => 12

/-- One encoded array-element payload of type `t` with numeric seed `n`,
following the per-type payload widths `GgufReader::read_value` consumes
(`metadata.rs`): 1 byte for u8/i8/bool, 2 for u16/i16, 4 for u32/i32/f32,
8 for u64/i64/f64, and a length-prefixed single ASCII character (`A`–`Z`,
selected by the seed) for a string. -/
def MetaRs.encElem : MetaRs.ValueType → Nat → Bytes
  | .uint8, n => [n % 256]
  | .int8, n => [n % 256]
  | .uint16, n => leBytes 2 n
  | .int16, n => leBytes 2 n
  | .uint32, n => enc32 n
  | .int32, n => enc32 n
  | .float32, n => enc32 n
  | .bool, n => [n % 256]
  | .string, n => enc64 1 ++ [65 + n % 26]
  | .array, _ => []
  | .uint64, n => enc64 n
  | .int64, n => enc64 n
  | .float64, n => enc64 n

/-- The value `GgufReader::read_value` decodes from `MetaRs.encElem t n`. -/
def MetaRs.elemVal : MetaRs.ValueType → Nat → MetaRs.Value
  | .uint8, n => .uint8 (n % 256)
  | .int8, n => .int8 (toSigned 8 (n % 256))
  | .uint16, n => .uint16 (n % 2 ^ 16)
  | .int16, n => .int16 (toSigned 16 (n % 2 ^ 16))
  | .uint32, n => .uint32 (n % 2 ^ 32)
  | .int32, n => .int32 (toSigned 32 (n % 2 ^ 32))
  | .float32, n => .float32 (n % 2 ^ 32)
  | .bool, n => .bool (n % 256 ≠ 0)
  | .string, n => .string ⟨[Char.ofNat (65 + n % 26)]⟩
  | .array, _ => .array .uint8 []
  | .uint64, n => .uint64 (n % 2 ^ 64)
  | .int64, n => .int64 (toSigned 64 (n % 2 ^ 64))
  | .float64, n => .float64 (n % 2 ^ 64)

/-- The type id of each `MetadataValueType` (the left inverse of
`MetadataValueType::try_from`). -/
def HeaderRs.MetadataValueType.toU32 : HeaderRs.MetadataValueType → Nat
  | .uint8 => 0
  | .int8 => 1
  | .uint16 => 2
  | .int16 => 3
  | .uint32 => 4
  | .int32 => 5
  | .float32 => 6
  | .bool => 7
  | .string => 8
  | .array => 9
  | .uint64 => 10
  | .int64 => 11
  | .float64 => 12

/-- One encoded array-element payload of type `t` with numeric seed `n`,
following the per-type payload widths `read_typed_value` consumes
(`header.rs`); same shapes as `MetaRs.encElem`. -/
def HeaderRs.encElemH : HeaderRs.MetadataValueType → Nat → Bytes
  | .uint8, n => [n % 256]
  | .int8, n => [n % 256]
  | .uint16, n => leBytes 2 n
  | .int16, n => leBytes 2 n
  | .uint32, n => enc32 n
  | .int32, n => enc32 n
  | .float32, n => enc32 n
  | .bool, n => [n % 256]
  | .string, n => enc64 1 ++ [65 + n % 26]
  | .array, _ => []
  | .uint64, n => enc64 n
  | .int64, n => enc64 n
  | .float64, n => enc64 n

/-- The value `read_typed_value` decodes from `HeaderRs.encElemH t n`. -/
def HeaderRs.elemValH : HeaderRs.MetadataValueType → Nat → HeaderRs.MetadataValue
  | .uint8, n => .uint8 (n % 256)
  | .int8, n => .int8 (toSigned 8 (n % 256))
  | .uint16, n => .uint16 (n % 2 ^ 16)
  | .int16, n => .int16 (toSigned 16 (n % 2 ^ 16))
  | .uint32, n => .uint32 (n % 2 ^ 32)
  | .int32, n => .int32 (toSigned 32 (n % 2 ^ 32))
  | .float32, n => .float32 (n % 2 ^ 32)
  | .bool, n => .bool (n % 256 ≠ 0)
  | .string, n => .string ⟨[Char.ofNat (65 + n % 26)]⟩
  | .array, _ => .array []
  | .uint64, n => .uint64 (n % 2 ^ 64)
  | .int64, n => .int64 (toSigned 64 (n % 2 ^ 64))
  | .float64, n => .float64 (n % 2 ^ 64)

/-! ## Helper lemmas: primitive readers on encoded inputs -/

theorem takeBytes_of_length_le (n : Nat) (bs : Bytes) (h : n ≤ bs.length) :
    takeBytes n bs = some (bs.take n, bs.drop n) := by
  simp [takeBytes, h]

theorem takeBytes_short (n : Nat) (bs : Bytes) (h : bs.length < n) :
    takeBytes n bs = none := by
  simp [takeBytes]; omega

theorem takeBytes_len_append (n : Nat) (xs rest : List Nat) (h : xs.length = n) :
    takeBytes n (xs ++ rest) = some (xs, rest) := by
  subst h; exact takeBytes_append xs rest

namespace MetaRs

theorem readU8_cons (b : Nat) (rest : Bytes) : readU8 (b :: rest) = .ok (b, rest) := rfl

theorem readU16_enc (n : Nat) (rest : Bytes) :
    readU16 (leBytes 2 n ++ rest) = .ok (n % 2 ^ 16, rest) := by
  have h := takeBytes_len_append 2 (leBytes 2 n) rest (leBytes_length 2 n)
  simp only [readU16, h, leVal_leBytes]
  norm_num

theorem readU32_enc (n : Nat) (rest : Bytes) :
    readU32 (enc32 n ++ rest) = .ok (n % 2 ^ 32, rest) := by
  have h := takeBytes_len_append 4 (leBytes 4 n) rest (leBytes_length 4 n)
  simp only [readU32, enc32, h, leVal_leBytes]
  norm_num

theorem readU64_enc (n : Nat) (rest : Bytes) :
    readU64 (enc64 n ++ rest) = .ok (n % 2 ^ 64, rest) := by
  have h := takeBytes_len_append 8 (leBytes 8 n) rest (leBytes_length 8 n)
  simp only [readU64, enc64, h, leVal_leBytes]
  norm_num

theorem readU32_of_length_le (bs : Bytes) (h : 4 ≤ bs.length) :
    readU32 bs = .ok (leVal (bs.take 4), bs.drop 4) := by
  simp only [readU32, takeBytes_of_length_le 4 bs h]

theorem readU64_of_length_le (bs : Bytes) (h : 8 ≤ bs.length) :
    readU64 bs = .ok (leVal (bs.take 8), bs.drop 8) := by
  simp only [readU64, takeBytes_of_length_le 8 bs h]

theorem readExact_append (xs rest : List Nat) :
    readExact xs.length (xs ++ rest) = .ok (xs, rest) := by
  simp only [readExact, takeBytes_append]

theorem readExact_len_append (n : Nat) (xs rest : List Nat) (h : xs.length = n) :
    readExact n (xs ++ rest) = .ok (xs, rest) := by
  subst h; exact readExact_append xs rest

end MetaRs

namespace HeaderRs

theorem readU8_consH (b : Nat) (rest : Bytes) : readU8 (b :: rest) = .ok (b, rest) := rfl

theorem readU16_encH (n : Nat) (rest : Bytes) :
    readU16 (leBytes 2 n ++ rest) = .ok (n % 2 ^ 16, rest) := by
  have h := takeBytes_len_append 2 (leBytes 2 n) rest (leBytes_length 2 n)
  simp only [readU16, h, leVal_leBytes]
  norm_num

theorem readU32_encH (n : Nat) (rest : Bytes) :
    readU32 (enc32 n ++ rest) = .ok (n % 2 ^ 32, rest) := by
  have h := takeBytes_len_append 4 (leBytes 4 n) rest (leBytes_length 4 n)
  simp only [readU32, enc32, h, leVal_leBytes]
  norm_num

theorem readU64_encH (n : Nat) (rest : Bytes) :
    readU64 (enc64 n ++ rest) = .ok (n % 2 ^ 64, rest) := by
  have h := takeBytes_len_append 8 (leBytes 8 n) rest (leBytes_length 8 n)
  simp only [readU64, enc64, h, leVal_leBytes]
  norm_num

theorem readExact_appendH (xs rest : List Nat) :
    readExact xs.length (xs ++ rest) = .ok (xs, rest) := by
  simp only [readExact, takeBytes_append]

theorem readExact_len_appendH (n : Nat) (xs rest : List Nat) (h : xs.length = n) :
    readExact n (xs ++ rest) = .ok (xs, rest) := by
  subst h; exact readExact_appendH xs rest

end HeaderRs

/-! ## Claim C8: element count and byte size -/

theorem foldl_mulMod (l : List Nat) (a : Nat) (ha : a < 2 ^ 64) :
    l.foldl (fun acc d => acc * d % 2 ^ 64) a = a * l.prod % 2 ^ 64 := by
  induction l generalizing a with
  | nil => simpa [Nat.mod_eq_of_lt ha] using (Nat.mod_eq_of_lt ha).symm
  | cons d l ih =>
      simp only [List.foldl_cons, List.prod_cons]
      rw [ih (a * d % 2 ^ 64) (Nat.mod_lt _ (by norm_num)), Nat.mod_mul_mod,
        Nat.mul_assoc]

theorem MetaRs.elementCount_eq (t : TensorInfo) (h : t.dims.prod < 2 ^ 64) :
    t.elementCount = t.dims.prod := by
  rw [TensorInfo.elementCount, foldl_mulMod t.dims 1 (by norm_num), Nat.one_mul,
    Nat.mod_eq_of_lt h]

/-- **C8.** `element_count` is the product of the dimension sizes (1 for an
empty dimension list), and for each directly supported tensor type
`byte_size` is `element_count` times that type's element byte size
(stated below the `u64` wrap-around threshold, which the embedding makes
explicit with `% 2 ^ 64`). -/
theorem C8_element_count_and_byte_size (t : MetaRs.TensorInfo)
    (h8 : t.dims.prod * 8 < 2 ^ 64) :
    t.elementCount = t.dims.prod ∧
    (t.dims = [] → t.elementCount = 1) ∧
    (t.tensorType = .F32 → t.byteSize = t.elementCount * 4) ∧
    (t.tensorType = .F16 → t.byteSize = t.elementCount * 2) ∧
    (t.tensorType = .I8 → t.byteSize = t.elementCount * 1) ∧
    (t.tensorType = .I16 → t.byteSize = t.elementCount * 2) ∧
    (t.tensorType = .I32 → t.byteSize = t.elementCount * 4) ∧
    (t.tensorType = .I64 → t.byteSize = t.elementCount * 8) ∧
    (t.tensorType = .F64 → t.byteSize = t.elementCount * 8) := by
  have hp : t.dims.prod < 2 ^ 64 := by omega
  have hec := MetaRs.elementCount_eq t hp
  refine ⟨hec, ?_, ?_, ?_, ?_, ?_, ?_, ?_, ?_⟩
  · intro hd
    rw [hec, hd, List.prod_nil]
  all_goals
    intro ht
    rw [MetaRs.TensorInfo.byteSize, ht, hec]
    exact Nat.mod_eq_of_lt (by omega)

/-- Witness for C8 at a concrete descriptor (shape `[2, 3]`, type `F32`):
element count 6. -/
theorem C8_element_count_and_byte_size_witness :
    (MetaRs.TensorInfo.mk "w" 2 [2, 3] .F32 0).dims.prod * 8 < 2 ^ 64 ∧
    (MetaRs.TensorInfo.mk "w" 2 [2, 3] .F32 0).elementCount =
      (MetaRs.TensorInfo.mk "w" 2 [2, 3] .F32 0).dims.prod :=
  ⟨by norm_num, (C8_element_count_and_byte_size _ (by norm_num)).1⟩

/-! ## Claim C10: `Value::as_u64` and `get_u32_field` coercions -/

/-- **C10.** `as_u64` yields `Some` exactly on the four unsigned variants;
a required field stored as a signed integer (here `Int32 5`) or float fails
`get_u32_field` even though representable; and a `Uint64` value is narrowed
by truncation modulo `2 ^ 32` with no range check. -/
theorem C10_asU64_unsigned_only :
    (∀ v : MetaRs.Value, (v.asU64).isSome ↔
      (v.valueType = .uint8 ∨ v.valueType = .uint16 ∨
       v.valueType = .uint32 ∨ v.valueType = .uint64)) ∧
    MetaRs.getU32Field
        (fun k => if k = "qwen3.block_count" then some (.int32 5) else none)
        "qwen3.block_count" =
      .error (.invalidFormat "Missing or invalid field: qwen3.block_count") ∧
    MetaRs.getU32Field
        (fun k => if k = "qwen3.block_count" then some (.float64 0x4014000000000000) else none)
        "qwen3.block_count" =
      .error (.invalidFormat "Missing or invalid field: qwen3.block_count") ∧
    MetaRs.getU32Field
        (fun k => if k = "qwen3.block_count" then some (.uint64 (2 ^ 32 + 7)) else none)
        "qwen3.block_count" =
      .ok 7 := by
  refine ⟨fun v => ?_, by rfl, by rfl, ?_⟩
  · cases v <;> simp [MetaRs.Value.asU64, MetaRs.Value.valueType]
  · show Except.ok ((2 ^ 32 + 7) % 2 ^ 32) = Except.ok 7
    norm_num

/-! ## Claim C9: the magic check, and Claim C2: version handling -/

/-- After a successful magic comparison, `GgufHeader::parse` decodes version
and counts from the following 16 bytes and succeeds. -/
theorem MetaRs.parse_ok_of_magic (bs : Bytes) (hlen : 24 ≤ bs.length)
    (hm : leVal (bs.take 4) = GGUF_MAGIC) :
    GgufHeader.parse bs = .ok
      ({ magic := GGUF_MAGIC,
         version := leVal ((bs.drop 4).take 4),
         nTensors := leVal (((bs.drop 4).drop 4).take 8),
         nKv := leVal ((((bs.drop 4).drop 4).drop 8).take 8) },
       ((((bs.drop 4).drop 4).drop 8).drop 8)) := by
  have h1 := readU32_of_length_le bs (by omega)
  have h2 := readU32_of_length_le (bs.drop 4) (by simp; omega)
  have h3 := readU64_of_length_le ((bs.drop 4).drop 4) (by simp; omega)
  have h4 := readU64_of_length_le (((bs.drop 4).drop 4).drop 8) (by simp; omega)
  simp only [GgufHeader.parse, h1, h2, h3, h4, hm, bind, Except.bind, ne_eq,
    not_true_eq_false, if_false, ite_false]
  rfl

/-- A failed magic comparison yields the `InvalidFormat` magic error. -/
theorem MetaRs.parse_magic_err (bs : Bytes) (hlen : 4 ≤ bs.length)
    (hm : leVal (bs.take 4) ≠ GGUF_MAGIC) :
    GgufHeader.parse bs = .error (.invalidFormat
      ("Invalid magic number. Expected 0x" ++ hex8 GGUF_MAGIC ++ ", got 0x" ++
        hex8 (leVal (bs.take 4)))) := by
  have h1 := readU32_of_length_le bs (by omega)
  simp only [GgufHeader.parse, h1, bind, Except.bind, ne_eq, hm,
    not_false_eq_true, if_true, ite_true]
  rfl

/-- **C9.** Magic-byte equality is necessary and sufficient: with the magic
bytes intact `GgufHeader::parse` passes the magic check (and, with the full
24 header bytes, succeeds), a differing 4-byte prefix yields the
invalid-magic `InvalidFormat` error, every single-bit corruption of the 4
magic bytes is rejected, and the same holds for `GGUFHeader::read`
(byte-array comparison against `b"GGUF"`, failing with `InvalidMagic`). -/
theorem C9_magic_necessary_sufficient :
    (∀ bs : Bytes, 24 ≤ bs.length → leVal (bs.take 4) = MetaRs.GGUF_MAGIC →
      ∃ h rest, MetaRs.GgufHeader.parse bs = .ok (h, rest) ∧
        h.magic = MetaRs.GGUF_MAGIC) ∧
    (∀ bs : Bytes, 4 ≤ bs.length → leVal (bs.take 4) ≠ MetaRs.GGUF_MAGIC →
      MetaRs.GgufHeader.parse bs = .error (.invalidFormat
        ("Invalid magic number. Expected 0x" ++ MetaRs.hex8 MetaRs.GGUF_MAGIC ++
          ", got 0x" ++ MetaRs.hex8 (leVal (bs.take 4))))) ∧
    (∀ k, k < 32 → MetaRs.isInvalidFormatErr
      (MetaRs.GgufHeader.parse (corruptMagic k ++ List.replicate 20 0)) = true) ∧
    (∀ bs : Bytes, 4 ≤ bs.length → bs.take 4 ≠ [71, 71, 85, 70] →
      HeaderRs.GGUFHeader.read bs = .error .invalidMagic) ∧
    HeaderRs.GGUFHeader.read ([71, 71, 85, 70] ++ enc32 3 ++ enc64 0 ++ enc64 0) =
      .ok (⟨3, 0, HeaderRs.Metadata.new, 32⟩, []) := by
  refine ⟨?_, ?_, ?_, ?_, ?_⟩
  · intro bs hlen hm
    exact ⟨_, _, MetaRs.parse_ok_of_magic bs hlen hm, rfl⟩
  · intro bs hlen hm
    exact MetaRs.parse_magic_err bs hlen hm
  · decide
  · intro bs hlen hm
    have h1 : HeaderRs.readExact 4 bs = .ok (bs.take 4, bs.drop 4) := by
      simp only [HeaderRs.readExact, takeBytes_of_length_le 4 bs hlen]
    simp only [HeaderRs.GGUFHeader.read, h1, bind, Except.bind, ne_eq, hm,
      not_false_eq_true, if_true, ite_true, throw, throwThe, MonadExceptOf.throw]
  · rfl

/-- Witness for C9: the canonical 24-byte header passes all parts. -/
theorem C9_magic_necessary_sufficient_witness :
    (∃ h rest, MetaRs.GgufHeader.parse
        ([71, 71, 85, 70] ++ enc32 3 ++ enc64 0 ++ enc64 0) = .ok (h, rest) ∧
      h.magic = MetaRs.GGUF_MAGIC) ∧
    HeaderRs.GGUFHeader.read ([70, 71, 85, 70] ++ enc32 3 ++ enc64 0 ++ enc64 0) =
      .error .invalidMagic :=
  ⟨C9_magic_necessary_sufficient.1 _ (by decide) (by decide),
   C9_magic_necessary_sufficient.2.2.2.1 _ (by decide) (by decide)⟩

theorem MetaRs.readU32_shape (bs : Bytes) :
    (∃ p, readU32 bs = .ok p) ∨ readU32 bs = .error .io := by
  rcases h : takeBytes 4 bs with _ | ⟨c, r⟩ <;> simp [readU32, h]

theorem MetaRs.readU64_shape (bs : Bytes) :
    (∃ p, readU64 bs = .ok p) ∨ readU64 bs = .error .io := by
  rcases h : takeBytes 8 bs with _ | ⟨c, r⟩ <;> simp [readU64, h]

/-- `GgufHeader::parse` never produces an `Unsupported` error: the version
field is not inspected during header decode. -/
theorem MetaRs.parse_never_unsupported (bs : Bytes) :
    isUnsupportedErr (GgufHeader.parse bs) = false := by
  rcases readU32_shape bs with ⟨⟨magic, bs1⟩, h1⟩ | h1
  · by_cases hm : magic = GGUF_MAGIC
    · rcases readU32_shape bs1 with ⟨⟨v, bs2⟩, h2⟩ | h2
      · rcases readU64_shape bs2 with ⟨⟨t, bs3⟩, h3⟩ | h3
        · rcases readU64_shape bs3 with ⟨⟨k, bs4⟩, h4⟩ | h4 <;>
            simp [GgufHeader.parse, h1, h2, h3, h4, hm, bind, Except.bind,
              isUnsupportedErr, pure, Except.pure]
        · simp [GgufHeader.parse, h1, h2, h3, hm, bind, Except.bind, isUnsupportedErr]
      · simp [GgufHeader.parse, h1, h2, hm, bind, Except.bind, isUnsupportedErr]
    · simp [GgufHeader.parse, h1, hm, bind, Except.bind, isUnsupportedErr, throw,
        throwThe, MonadExceptOf.throw]
  · simp [GgufHeader.parse, h1, bind, Except.bind, isUnsupportedErr]

/-- **C2 (counterexample).** The claim is false for `GGUFHeader::read`
(`header.rs`): a byte source whose first 4 bytes are the GGUF magic but whose
version field is 2 makes header decode fail with `UnsupportedVersion(2)`. -/
theorem C2_counterexample_headerRs_rejects_version_2 :
    HeaderRs.GGUFHeader.read ([71, 71, 85, 70] ++ enc32 2 ++ enc64 0 ++ enc64 0) =
      .error (.unsupportedVersion 2) := by rfl

/-- **C2 (amended).** `GgufHeader::parse` (`metadata.rs`) succeeds on any
version value once the magic passes (given the 24 header bytes), never
produces an unsupported-version error, and defers the 1–3 range check to
`is_version_supported`; `GGUFHeader::read` (`header.rs`), by contrast,
rejects every version other than 3 during decode with `UnsupportedVersion`. -/
theorem C2_version_only_checked_by_capability :
    (∀ bs : Bytes, 24 ≤ bs.length → leVal (bs.take 4) = MetaRs.GGUF_MAGIC →
      ∃ h rest, MetaRs.GgufHeader.parse bs = .ok (h, rest) ∧
        h.version = leVal ((bs.drop 4).take 4) ∧
        (h.isVersionSupported = true ↔ 1 ≤ h.version ∧ h.version ≤ 3)) ∧
    (∀ bs : Bytes, MetaRs.isUnsupportedErr (MetaRs.GgufHeader.parse bs) = false) ∧
    (∀ v rest, v < 2 ^ 32 → v ≠ 3 →
      HeaderRs.GGUFHeader.read ([71, 71, 85, 70] ++ enc32 v ++ rest) =
        .error (.unsupportedVersion v)) := by
  refine ⟨?_, MetaRs.parse_never_unsupported, ?_⟩
  · intro bs hlen hm
    refine ⟨_, _, MetaRs.parse_ok_of_magic bs hlen hm, rfl, ?_⟩
    simp [MetaRs.GgufHeader.isVersionSupported]
  · intro v rest hv h3
    have h1 : HeaderRs.readExact 4 ([71, 71, 85, 70] ++ enc32 v ++ rest) =
        .ok ([71, 71, 85, 70], enc32 v ++ rest) := by
      exact HeaderRs.readExact_len_appendH 4 [71, 71, 85, 70] (enc32 v ++ rest) (by rfl)
    have h2 := HeaderRs.readU32_encH v rest
    rw [Nat.mod_eq_of_lt hv] at h2
    simp only [HeaderRs.GGUFHeader.read, h1, h2, bind, Except.bind, ne_eq,
      not_true_eq_false, ite_false, if_false, reduceIte, h3, not_false_eq_true,
      ite_true, if_true]
    rfl

/-- Witness for C2: a version-999 file still decodes via `GgufHeader::parse`
(and is reported unsupported only by the capability check), while
`GGUFHeader::read` rejects version 2 during decode. -/
theorem C2_version_only_checked_by_capability_witness :
    (∃ h rest, MetaRs.GgufHeader.parse
        ([71, 71, 85, 70] ++ enc32 999 ++ enc64 0 ++ enc64 0) = .ok (h, rest) ∧
      h.version = leVal ((([71, 71, 85, 70] ++ enc32 999 ++ enc64 0 ++ enc64 0).drop 4).take 4) ∧
      (h.isVersionSupported = true ↔ 1 ≤ h.version ∧ h.version ≤ 3)) ∧
    HeaderRs.GGUFHeader.read ([71, 71, 85, 70] ++ enc32 2 ++ enc64 0 ++ enc64 0) =
      .error (.unsupportedVersion 2) :=
  ⟨C2_version_only_checked_by_capability.1 _ (by decide) (by decide),
   C2_version_only_checked_by_capability.2.2 2 (enc64 0 ++ enc64 0) (by norm_num)
     (by norm_num)⟩

/-! ## Claim C4: the 1 MiB string sanity bound -/

theorem utf8Decode_cons_ascii (b : Nat) (r : List Nat) (hb : b < 128) :
    utf8Decode (b :: r) = (utf8Decode r).map (fun cs => Char.ofNat b :: cs) := by
  show utf8Go (r.length + 1) (b :: r) = _
  simp only [utf8Go, if_pos hb]
  rfl

theorem utf8Decode_replicate (n b : Nat) (hb : b < 128) :
    utf8Decode (List.replicate n b) = some (List.replicate n (Char.ofNat b)) := by
  induction n with
  | zero => rfl
  | succ n ih =>
      rw [List.replicate_succ, List.replicate_succ,
        utf8Decode_cons_ascii b _ hb, ih]
      rfl

theorem utf8Decode_replicate_65 (n : Nat) :
    utf8Decode (List.replicate n 65) = some (List.replicate n 'A') :=
  utf8Decode_replicate n 65 (by norm_num)

/-- `read_gguf_string` on a well-formed in-bound payload. -/
theorem HeaderRs.readGgufString_ok (nm : List Nat) (cs : List Char) (rest : Bytes)
    (hle : nm.length ≤ 1024 * 1024) (hdec : utf8Decode nm = some cs) :
    HeaderRs.readGgufString (enc64 nm.length ++ (nm ++ rest)) = .ok (⟨cs⟩, rest) := by
  have hlt : nm.length < 2 ^ 64 := by omega
  have h1 := HeaderRs.readU64_encH nm.length (nm ++ rest)
  rw [Nat.mod_eq_of_lt hlt] at h1
  have h2 := HeaderRs.readExact_appendH nm rest
  simp only [HeaderRs.readGgufString, h1, bind, Except.bind]
  rw [if_neg (by omega)]
  simp only [h2, bind, Except.bind, hdec]
  rfl

/-- For any declared length (no bound applied), `GgufReader::read_value`
reads a string payload in full, UTF-8 validated. -/
theorem MetaRs.readValue_string_any_len (fuel : Nat) (data : List Nat)
    (rest : Bytes) (cs : List Char) (hlt : data.length < 2 ^ 64)
    (hdec : utf8Decode data = some cs) :
    readValue fuel .string (enc64 data.length ++ (data ++ rest)) =
      .ok (.string ⟨cs⟩, rest) := by
  have h1 := readU64_enc data.length (data ++ rest)
  rw [Nat.mod_eq_of_lt hlt] at h1
  have h2 := readExact_append data rest
  cases fuel <;>
    simp only [readValue, readValueStep, h1, h2, bind, Except.bind, hdec] <;> rfl

/-- **C4 (counterexample).** The claim is false for the metadata-block value
decoder `GgufReader::read_value` (`metadata.rs`): a string payload with a
declared length of 1 MiB + 1 is not rejected — given the bytes it decodes
successfully, no bound applied on that path. -/
theorem C4_counterexample_readValue_unbounded_string :
    MetaRs.readValue 1 .string (enc64 1048577 ++ List.replicate 1048577 65) =
      .ok (.string ⟨List.replicate 1048577 'A'⟩, []) := by
  have h := MetaRs.readValue_string_any_len 1 (List.replicate 1048577 65) []
    (List.replicate 1048577 'A')
    (by rw [List.length_replicate]; norm_num)
    (utf8Decode_replicate_65 1048577)
  rwa [List.length_replicate, List.append_nil] at h

/-- **C4 (amended).** The 1 MiB sanity bound is enforced by
`read_gguf_string` (`tensor.rs`, used by the `header.rs` metadata decoder):
an over-long declared length fails with the "String too long" error before
any bytes are read, and a length within the bound is read in full and UTF-8
validated.  `GgufReader::read_value` (`metadata.rs`) enforces no bound and
reads any declared length in full, UTF-8 validated. -/
theorem C4_string_sanity_bound :
    (∀ len rest, 1024 * 1024 < len → len < 2 ^ 64 →
      HeaderRs.readGgufString (enc64 len ++ rest) =
        .error (.metadata "String too long")) ∧
    (∀ (data : List Nat) rest cs, data.length ≤ 1024 * 1024 →
      utf8Decode data = some cs →
      HeaderRs.readGgufString (enc64 data.length ++ (data ++ rest)) =
        .ok (⟨cs⟩, rest)) ∧
    (∀ (fuel : Nat) (data : List Nat) rest cs, data.length < 2 ^ 64 →
      utf8Decode data = some cs →
      MetaRs.readValue fuel .string (enc64 data.length ++ (data ++ rest)) =
        .ok (.string ⟨cs⟩, rest)) := by
  refine ⟨?_, ?_, ?_⟩
  · intro len rest hbig hlt
    have h1 := HeaderRs.readU64_encH len rest
    rw [Nat.mod_eq_of_lt hlt] at h1
    simp only [HeaderRs.readGgufString, h1, bind, Except.bind]
    rw [if_pos hbig]
    rfl
  · exact fun data rest cs hle hdec =>
      HeaderRs.readGgufString_ok data cs rest hle hdec
  · exact fun fuel data rest cs hlt hdec =>
      MetaRs.readValue_string_any_len fuel data rest cs hlt hdec

/-- Witness for C4: the bound fires at length 1 MiB + 1 on the
`read_gguf_string` path, and a 2-byte string within the bound decodes. -/
theorem C4_string_sanity_bound_witness :
    HeaderRs.readGgufString (enc64 1048577 ++ []) =
      .error (.metadata "String too long") ∧
    HeaderRs.readGgufString (enc64 2 ++ ([104, 105] ++ [])) = .ok ("hi", []) :=
  ⟨C4_string_sanity_bound.1 1048577 [] (by norm_num) (by norm_num),
   C4_string_sanity_bound.2.1 [104, 105] [] "hi".data (by norm_num) (by rfl)⟩

/-! ## Claim C3: arrays of arrays -/

/-- **C3 (counterexample).** The claim is false for `GgufReader::read_value`
(`metadata.rs`): an array whose decoded element type id is itself `Array`
(id 9) decodes successfully — here an outer array containing one empty
`uint32` array. -/
theorem C3_counterexample_readValue_nested_array :
    MetaRs.readValue 3 .array (enc32 9 ++ enc64 1 ++ enc32 4 ++ enc64 0) =
      .ok (.array .array [.array .uint32 []], []) := by rfl

theorem MetaRs.toU32_lt (t : MetaRs.ValueType) : t.toU32 < 2 ^ 32 := by
  cases t <;> decide

theorem MetaRs.fromU32_toU32 (t : MetaRs.ValueType) :
    MetaRs.ValueType.fromU32 t.toU32 = some t := by
  cases t <;> rfl

theorem HeaderRs.toU32H_lt (t : HeaderRs.MetadataValueType) : t.toU32 < 2 ^ 32 := by
  cases t <;> decide

theorem HeaderRs.tryFrom_toU32 (t : HeaderRs.MetadataValueType) :
    HeaderRs.MetadataValueType.tryFrom t.toU32 = .ok t := by
  cases t <;> rfl

/-- `GgufReader::read_value` on one encoded element of each non-array type:
the per-type payload decodes to the per-type value. -/
theorem MetaRs.readValue_encElem (fuel : Nat) (t : MetaRs.ValueType)
    (ht : t ≠ .array) (n : Nat) (rest : Bytes) :
    MetaRs.readValue fuel t (MetaRs.encElem t n ++ rest) =
      .ok (MetaRs.elemVal t n, rest) := by
  cases t with
  | array => exact absurd rfl ht
  | uint8 => cases fuel <;> rfl
  | int8 => cases fuel <;> rfl
  | bool => cases fuel <;> rfl
  | uint16 =>
      cases fuel <;>
        simp [readValue, readValueStep, encElem, elemVal, readU16_enc,
          bind, Except.bind, pure, Except.pure]
  | int16 =>
      cases fuel <;>
        simp [readValue, readValueStep, encElem, elemVal, readU16_enc,
          bind, Except.bind, pure, Except.pure]
  | uint32 =>
      cases fuel <;>
        simp [readValue, readValueStep, encElem, elemVal, readU32_enc,
          bind, Except.bind, pure, Except.pure]
  | int32 =>
      cases fuel <;>
        simp [readValue, readValueStep, encElem, elemVal, readU32_enc,
          bind, Except.bind, pure, Except.pure]
  | float32 =>
      cases fuel <;>
        simp [readValue, readValueStep, encElem, elemVal, readU32_enc,
          bind, Except.bind, pure, Except.pure]
  | uint64 =>
      cases fuel <;>
        simp [readValue, readValueStep, encElem, elemVal, readU64_enc,
          bind, Except.bind, pure, Except.pure]
  | int64 =>
      cases fuel <;>
        simp [readValue, readValueStep, encElem, elemVal, readU64_enc,
          bind, Except.bind, pure, Except.pure]
  | float64 =>
      cases fuel <;>
        simp [readValue, readValueStep, encElem, elemVal, readU64_enc,
          bind, Except.bind, pure, Except.pure]
  | string =>
      have hdec : utf8Decode [65 + n % 26] = some [Char.ofNat (65 + n % 26)] := by
        rw [utf8Decode_cons_ascii _ _ (by omega)]
        rfl
      exact readValue_string_any_len fuel [65 + n % 26] rest
        [Char.ofNat (65 + n % 26)] (by norm_num) hdec

/-- The Array-case element loop of `read_value` reads `count` same-typed
payloads preserving element order, for every non-array element type. -/
theorem MetaRs.readElemsGo_encElem (fuel : Nat) (t : MetaRs.ValueType)
    (ht : t ≠ .array) (vals : List Nat) (rest : Bytes) :
    MetaRs.readValueStep.readElemsGo (MetaRs.readValue fuel t) vals.length
        (vals.flatMap (MetaRs.encElem t) ++ rest) =
      .ok (vals.map (MetaRs.elemVal t), rest) := by
  induction vals generalizing rest with
  | nil => simp [readValueStep.readElemsGo]
  | cons v vs ih =>
      have h1 : readValue fuel t
          (encElem t v ++ (vs.flatMap (encElem t) ++ rest)) =
          .ok (elemVal t v, vs.flatMap (encElem t) ++ rest) :=
        readValue_encElem fuel t ht v _
      simp only [List.flatMap_cons, List.append_assoc, List.length_cons,
        readValueStep.readElemsGo, h1, bind, Except.bind, ih, List.map_cons,
        pure, Except.pure]

/-- `read_typed_value` on one encoded element of each non-array type. -/
theorem HeaderRs.readTypedValue_encElemH (t : HeaderRs.MetadataValueType)
    (ht : t ≠ .array) (n : Nat) (rest : Bytes) :
    HeaderRs.readTypedValue t (HeaderRs.encElemH t n ++ rest) =
      .ok (HeaderRs.elemValH t n, rest) := by
  cases t with
  | array => exact absurd rfl ht
  | uint8 => rfl
  | int8 => rfl
  | bool => rfl
  | uint16 =>
      simp [readTypedValue, encElemH, elemValH, readU16_encH,
        bind, Except.bind, pure, Except.pure]
  | int16 =>
      simp [readTypedValue, encElemH, elemValH, readU16_encH,
        bind, Except.bind, pure, Except.pure]
  | uint32 =>
      simp [readTypedValue, encElemH, elemValH, readU32_encH,
        bind, Except.bind, pure, Except.pure]
  | int32 =>
      simp [readTypedValue, encElemH, elemValH, readU32_encH,
        bind, Except.bind, pure, Except.pure]
  | float32 =>
      simp [readTypedValue, encElemH, elemValH, readU32_encH,
        bind, Except.bind, pure, Except.pure]
  | uint64 =>
      simp [readTypedValue, encElemH, elemValH, readU64_encH,
        bind, Except.bind, pure, Except.pure]
  | int64 =>
      simp [readTypedValue, encElemH, elemValH, readU64_encH,
        bind, Except.bind, pure, Except.pure]
  | float64 =>
      simp [readTypedValue, encElemH, elemValH, readU64_encH,
        bind, Except.bind, pure, Except.pure]
  | string =>
      have hdec : utf8Decode [65 + n % 26] = some [Char.ofNat (65 + n % 26)] := by
        rw [utf8Decode_cons_ascii _ _ (by omega)]
        rfl
      have hs : readGgufString ((enc64 1 ++ [65 + n % 26]) ++ rest) =
          .ok (⟨[Char.ofNat (65 + n % 26)]⟩, rest) := by
        exact readGgufString_ok [65 + n % 26] [Char.ofNat (65 + n % 26)] rest
          (by norm_num) hdec
      simp only [readTypedValue, encElemH, hs, bind, Except.bind]
      rfl

/-- The Array-case element loop of `read_metadata_kv` reads `count`
same-typed payloads preserving element order, for every non-array element
type. -/
theorem HeaderRs.readTypedList_encElemH (t : HeaderRs.MetadataValueType)
    (ht : t ≠ .array) (vals : List Nat) (rest : Bytes) :
    HeaderRs.readTypedList t vals.length
        (vals.flatMap (HeaderRs.encElemH t) ++ rest) =
      .ok (vals.map (HeaderRs.elemValH t), rest) := by
  induction vals generalizing rest with
  | nil => simp [readTypedList]
  | cons v vs ih =>
      have h1 : readTypedValue t
          (encElemH t v ++ (vs.flatMap (encElemH t) ++ rest)) =
          .ok (elemValH t v, vs.flatMap (encElemH t) ++ rest) :=
        readTypedValue_encElemH t ht v _
      simp only [List.flatMap_cons, List.append_assoc, List.length_cons,
        readTypedList, h1, bind, Except.bind, ih, List.map_cons,
        pure, Except.pure]

/-- **C3 (amended).** The `header.rs` decoder rejects nested arrays through
`read_typed_value` ("Nested arrays not supported"), which fires on the first
element — so a nested array with a positive count fails there, while a
zero-count nested array is accepted; `GgufReader::read_value`
(`metadata.rs`) instead recurses into `Array` element types and accepts
arrays of arrays.  For every non-array element type `t` both decoders read
`count` same-typed payloads preserving element order: an array of `count`
encoded elements of type `t` decodes to exactly the per-element values in
order, on the `metadata.rs` path and on the `header.rs` path. -/
theorem C3_nested_arrays_and_element_order :
    (∀ bs : Bytes, HeaderRs.readTypedValue .array bs =
      .error (.metadata "Nested arrays not supported")) ∧
    (∀ (n : Nat) (bs : Bytes), HeaderRs.readTypedList .array (n + 1) bs =
      .error (.metadata "Nested arrays not supported")) ∧
    (HeaderRs.readMetadataKv
        (enc64 1 ++ asciiBytes "k" ++ enc32 9 ++ enc32 9 ++ enc64 0) =
      .ok (("k", .array []), [])) ∧
    (∀ (fuel : Nat) (t : MetaRs.ValueType), t ≠ .array →
      ∀ (vals : List Nat) rest, vals.length < 2 ^ 64 →
      MetaRs.readValue (fuel + 1) .array
          (enc32 t.toU32 ++ (enc64 vals.length ++
            (vals.flatMap (MetaRs.encElem t) ++ rest))) =
        .ok (.array t (vals.map (MetaRs.elemVal t)), rest)) ∧
    (∀ (t : HeaderRs.MetadataValueType), t ≠ .array →
      ∀ (vals : List Nat) rest, vals.length < 2 ^ 64 →
      HeaderRs.readMetadataKv
          (enc64 1 ++ (asciiBytes "k" ++ (enc32 9 ++ (enc32 t.toU32 ++
            (enc64 vals.length ++ (vals.flatMap (HeaderRs.encElemH t) ++ rest)))))) =
        .ok (("k", .array (vals.map (HeaderRs.elemValH t))), rest)) := by
  refine ⟨fun _ => rfl, fun _ _ => rfl, by rfl, ?_, ?_⟩
  · intro fuel t ht vals rest hlen
    have h1 := MetaRs.readU32_enc t.toU32
      (enc64 vals.length ++ (vals.flatMap (MetaRs.encElem t) ++ rest))
    rw [Nat.mod_eq_of_lt (MetaRs.toU32_lt t)] at h1
    have h2 := MetaRs.readU64_enc vals.length
      (vals.flatMap (MetaRs.encElem t) ++ rest)
    rw [Nat.mod_eq_of_lt hlen] at h2
    have h3 := MetaRs.readElemsGo_encElem fuel t ht vals rest
    simp only [MetaRs.readValue, MetaRs.readValueStep, h1, h2, bind, Except.bind]
    simp only [MetaRs.fromU32_toU32, h2, bind, Except.bind, h3, pure, Except.pure]
  · intro t ht vals rest hlen
    have hk : HeaderRs.readGgufString
        (enc64 1 ++ (asciiBytes "k" ++ (enc32 9 ++ (enc32 t.toU32 ++
          (enc64 vals.length ++ (vals.flatMap (HeaderRs.encElemH t) ++ rest)))))) =
        .ok ("k", enc32 9 ++ (enc32 t.toU32 ++ (enc64 vals.length ++
          (vals.flatMap (HeaderRs.encElemH t) ++ rest)))) := by
      have h1 := HeaderRs.readU64_encH 1 (asciiBytes "k" ++ (enc32 9 ++
        (enc32 t.toU32 ++ (enc64 vals.length ++
          (vals.flatMap (HeaderRs.encElemH t) ++ rest)))))
      have h2 := HeaderRs.readExact_len_appendH 1 (asciiBytes "k") (enc32 9 ++
        (enc32 t.toU32 ++ (enc64 vals.length ++
          (vals.flatMap (HeaderRs.encElemH t) ++ rest)))) (by rfl)
      simp only [HeaderRs.readGgufString, h1, h2, bind, Except.bind]
      norm_num
      rfl
    have h3 := HeaderRs.readU32_encH 9 (enc32 t.toU32 ++ (enc64 vals.length ++
      (vals.flatMap (HeaderRs.encElemH t) ++ rest)))
    have h4 := HeaderRs.readU32_encH t.toU32 (enc64 vals.length ++
      (vals.flatMap (HeaderRs.encElemH t) ++ rest))
    rw [Nat.mod_eq_of_lt (HeaderRs.toU32H_lt t)] at h4
    have h5 := HeaderRs.readU64_encH vals.length
      (vals.flatMap (HeaderRs.encElemH t) ++ rest)
    rw [Nat.mod_eq_of_lt hlen] at h5
    have h6 := HeaderRs.readTypedList_encElemH t ht vals rest
    have h9 : HeaderRs.MetadataValueType.tryFrom 9 = .ok .array := rfl
    simp only [HeaderRs.readMetadataKv, hk, h3, h4, h5, bind, Except.bind]
    norm_num [h9, HeaderRs.tryFrom_toU32, Except.map, bind, Except.bind, h6]
    rfl

/-- Witness for C3: a nested array of count 1 fails on the `header.rs` path;
a three-element `uint32` array decodes in order on the `metadata.rs` path;
and a two-element string array ("A", "B") decodes in order on the
`header.rs` path. -/
theorem C3_nested_arrays_and_element_order_witness :
    HeaderRs.readTypedList .array 1 [] =
      .error (.metadata "Nested arrays not supported") ∧
    MetaRs.readValue 1 .array
        (enc32 4 ++ (enc64 3 ++ ([1, 2, 3].flatMap (MetaRs.encElem .uint32) ++ []))) =
      .ok (.array .uint32 [.uint32 1, .uint32 2, .uint32 3], []) ∧
    HeaderRs.readMetadataKv
        (enc64 1 ++ (asciiBytes "k" ++ (enc32 9 ++ (enc32 8 ++
          (enc64 2 ++ ([0, 1].flatMap (HeaderRs.encElemH .string) ++ [])))))) =
      .ok (("k", .array [.string "A", .string "B"]), []) := by
  refine ⟨C3_nested_arrays_and_element_order.2.1 0 [], ?_, ?_⟩
  · exact C3_nested_arrays_and_element_order.2.2.2.1 0 .uint32 (by decide)
      [1, 2, 3] [] (by decide)
  · exact C3_nested_arrays_and_element_order.2.2.2.2 .string (by decide)
      [0, 1] [] (by decide)

/-! ## Claim C5: tensor-name validation -/

/-- **C5 (counterexample).** The claim is false for
`TensorLoader::read_tensor_info` (`tensors.rs`): a tensor record with an
empty name decodes successfully — that path applies no name validation. -/
theorem C5_counterexample_readTensorInfo_accepts_empty_name :
    MetaRs.readTensorInfo 1 (enc64 0 ++ enc32 0 ++ enc32 0 ++ enc64 0) =
      .ok ([⟨"", 0, [], .F32, 0⟩], []) := by rfl

/-- **C5 (amended).** The empty-or-over-64-byte name rule, failing with
`InvalidTensorName` (not a generic format error), is enforced only by
`TensorInfo::read` (`tensor.rs`) via `validate_tensor_name`: an empty name
fails there, an over-long decoded name fails there, and a name within the
bound is accepted (decoding proceeds to the dimensions and succeeds on a
well-formed record).  `TensorLoader::read_tensor_info` (`tensors.rs`)
performs no name-length validation: it accepts a name of any decoded
length. -/
theorem C5_tensor_name_validation :
    (∀ rest, HeaderRs.TensorInfo.read (enc64 0 ++ rest) =
      .error (.invalidTensorName "")) ∧
    (∀ (name : String) (nm : List Nat) rest, utf8Decode nm = some name.data →
      nm.length ≤ 1024 * 1024 →
      (name.utf8ByteSize = 0 ∨ name.utf8ByteSize > 64) →
      HeaderRs.TensorInfo.read (enc64 nm.length ++ (nm ++ rest)) =
        .error (.invalidTensorName name)) ∧
    (∀ (name : String) (nm : List Nat), utf8Decode nm = some name.data →
      nm.length ≤ 1024 * 1024 →
      ¬(name.utf8ByteSize = 0 ∨ name.utf8ByteSize > 64) →
      ∀ t o, t < 2 ^ 32 → o < 2 ^ 64 →
      HeaderRs.TensorInfo.read
          (enc64 nm.length ++ (nm ++ (enc32 0 ++ (enc32 t ++ enc64 o)))) =
        .ok (⟨name, [], t, o⟩, [])) ∧
    (∀ (name : String) (nm : List Nat), utf8Decode nm = some name.data →
      nm.length < 2 ^ 64 →
      MetaRs.readTensorInfo 1
          (enc64 nm.length ++ (nm ++ (enc32 0 ++ (enc32 0 ++ enc64 0)))) =
        .ok ([⟨name, 0, [], .F32, 0⟩], [])) := by
  refine ⟨?_, ?_, ?_, ?_⟩
  · intro rest
    have hs : HeaderRs.readGgufString (enc64 0 ++ rest) = .ok ("", rest) := by
      have h := HeaderRs.readGgufString_ok [] [] rest (by norm_num) (by rfl)
      simpa using h
    simp only [HeaderRs.TensorInfo.read, hs, bind, Except.bind,
      HeaderRs.validateTensorName]
    rw [if_pos (Or.inl (by rfl))]
    rfl
  · intro name nm rest hdec hle hbad
    have hs := HeaderRs.readGgufString_ok nm name.data rest hle hdec
    simp only [HeaderRs.TensorInfo.read, hs, bind, Except.bind,
      HeaderRs.validateTensorName]
    rw [if_pos hbad]
    rfl
  · intro name nm hdec hle hgood t o ht ho
    have hs := HeaderRs.readGgufString_ok nm name.data
      (enc32 0 ++ (enc32 t ++ enc64 o)) hle hdec
    have h3 := HeaderRs.readU32_encH 0 (enc32 t ++ enc64 o)
    norm_num at h3
    have h4 := HeaderRs.readU32_encH t (enc64 o)
    rw [Nat.mod_eq_of_lt ht] at h4
    have h5 := HeaderRs.readU64_encH o []
    rw [Nat.mod_eq_of_lt ho, List.append_nil] at h5
    simp only [HeaderRs.TensorInfo.read, hs, bind, Except.bind,
      HeaderRs.validateTensorName]
    rw [if_neg hgood]
    simp only [Except.map, bind, Except.bind, h3, HeaderRs.readDimensions, h4,
      h5, pure, Except.pure]
  · intro name nm hdec hlt
    have h1 := MetaRs.readU64_enc nm.length (nm ++ (enc32 0 ++ (enc32 0 ++ enc64 0)))
    rw [Nat.mod_eq_of_lt hlt] at h1
    have h2 := MetaRs.readExact_append nm (enc32 0 ++ (enc32 0 ++ enc64 0))
    have h3 := MetaRs.readU32_enc 0 (enc32 0 ++ enc64 0)
    have h4 := MetaRs.readU32_enc 0 (enc64 0)
    have h5 := MetaRs.readU64_enc 0 []
    rw [List.append_nil] at h5
    norm_num at h3 h4 h5
    simp only [MetaRs.readTensorInfo, MetaRs.readTensorInfo.go,
      MetaRs.readOneTensorInfo, h1, h2, h3, h4, h5, bind, Except.bind, hdec,
      MetaRs.readOneTensorInfo.readDims, MetaRs.TensorType.fromU32, pure,
      Except.pure]

/-- Witness for C5: a 65-byte ASCII name is rejected by `TensorInfo::read`
with `InvalidTensorName`, while `read_tensor_info` accepts the same name. -/
theorem C5_tensor_name_validation_witness :
    HeaderRs.TensorInfo.read
        (enc64 65 ++ (List.replicate 65 97 ++ [])) =
      .error (.invalidTensorName ⟨List.replicate 65 'a'⟩) ∧
    MetaRs.readTensorInfo 1
        (enc64 65 ++ (List.replicate 65 97 ++ (enc32 0 ++ (enc32 0 ++ enc64 0)))) =
      .ok ([⟨⟨List.replicate 65 'a'⟩, 0, [], .F32, 0⟩], []) := by
  constructor
  · have h := C5_tensor_name_validation.2.1 ⟨List.replicate 65 'a'⟩
      (List.replicate 65 97) []
      (by simpa using utf8Decode_replicate 65 97 (by norm_num))
      (by rw [List.length_replicate]; norm_num)
      (Or.inr (by decide))
    rwa [List.length_replicate] at h
  · have h := C5_tensor_name_validation.2.2.2 ⟨List.replicate 65 'a'⟩
      (List.replicate 65 97)
      (by simpa using utf8Decode_replicate 65 97 (by norm_num))
      (by rw [List.length_replicate]; norm_num)
    rwa [List.length_replicate] at h


/-! ## Claim C6: the declared-alignment rule -/

theorem bindOk {ε α β : Type} (x : α) (f : α → Except ε β) :
    (bind (Except.ok x) f : Except ε β) = f x := rfl

theorem pureOk {ε α : Type} (x : α) : (pure x : Except ε α) = .ok x := rfl

theorem bindErr {ε α β : Type} (e : ε) (f : α → Except ε β) :
    (bind (Except.error e) f : Except ε β) = .error e := rfl

/-- `GGUFHeader::read` on `alignFile a`: everything up to the alignment check
decodes, and the declared value `a` is compared against 8. -/
theorem HeaderRs.read_alignFile (a : Nat) (ha : a < 2 ^ 32) :
    HeaderRs.GGUFHeader.read (alignFile a) =
      if a < 8 then .error (.invalidAlignment a)
      else .ok (⟨3, 0, [("general.alignment", .uint32 a)], a⟩, []) := by
  have h0 : HeaderRs.readExact 4 (alignFile a) =
      .ok ([71, 71, 85, 70], enc32 3 ++ enc64 0 ++ enc64 1 ++
        (enc64 17 ++ (asciiBytes "general.alignment" ++ (enc32 4 ++ enc32 a)))) := by
    exact HeaderRs.readExact_len_appendH 4 [71, 71, 85, 70] _ (by rfl)
  have h1 : HeaderRs.readU32 (enc32 3 ++ enc64 0 ++ enc64 1 ++
      (enc64 17 ++ (asciiBytes "general.alignment" ++ (enc32 4 ++ enc32 a)))) =
      .ok (3, enc64 0 ++ enc64 1 ++
        (enc64 17 ++ (asciiBytes "general.alignment" ++ (enc32 4 ++ enc32 a)))) := by
    exact HeaderRs.readU32_encH 3 _
  have h2 : HeaderRs.readU64 (enc64 0 ++ enc64 1 ++
      (enc64 17 ++ (asciiBytes "general.alignment" ++ (enc32 4 ++ enc32 a)))) =
      .ok (0, enc64 1 ++
        (enc64 17 ++ (asciiBytes "general.alignment" ++ (enc32 4 ++ enc32 a)))) := by
    exact HeaderRs.readU64_encH 0 _
  have h3 : HeaderRs.readU64 (enc64 1 ++
      (enc64 17 ++ (asciiBytes "general.alignment" ++ (enc32 4 ++ enc32 a)))) =
      .ok (1, enc64 17 ++ (asciiBytes "general.alignment" ++ (enc32 4 ++ enc32 a))) := by
    exact HeaderRs.readU64_encH 1 _
  have hlen : (asciiBytes "general.alignment").length = 17 := by decide
  have hkey : HeaderRs.readGgufString
      (enc64 17 ++ (asciiBytes "general.alignment" ++ (enc32 4 ++ enc32 a))) =
      .ok ("general.alignment", enc32 4 ++ enc32 a) := by
    have h := HeaderRs.readGgufString_ok (asciiBytes "general.alignment")
      ("general.alignment".data) (enc32 4 ++ enc32 a)
      (by rw [hlen]; norm_num) (by decide)
    rw [hlen] at h
    exact h
  have h4 : HeaderRs.readU32 (enc32 4 ++ enc32 a) = .ok (4, enc32 a) := by
    exact HeaderRs.readU32_encH 4 (enc32 a)
  have h5 : HeaderRs.readU32 (enc32 a) = .ok (a, []) := by
    have h := HeaderRs.readU32_encH a []
    rwa [List.append_nil, Nat.mod_eq_of_lt ha] at h
  have hkv : HeaderRs.readMetadataKv
      (enc64 17 ++ (asciiBytes "general.alignment" ++ (enc32 4 ++ enc32 a))) =
      .ok (("general.alignment", .uint32 a), []) := by
    unfold HeaderRs.readMetadataKv
    simp only [hkey, bindOk, h4, h5, HeaderRs.MetadataValueType.tryFrom,
      Except.map, pureOk]
  have hkvs : HeaderRs.readKvs 1 HeaderRs.Metadata.new
      (enc64 17 ++ (asciiBytes "general.alignment" ++ (enc32 4 ++ enc32 a))) =
      .ok ([("general.alignment", .uint32 a)], []) := by
    unfold HeaderRs.readKvs
    simp only [hkv, bindOk]
    rfl
  have hget : (HeaderRs.Metadata.get
      [("general.alignment", HeaderRs.MetadataValue.uint32 a)]
      "general.alignment").bind HeaderRs.MetadataValue.asUint32 = some a := rfl
  unfold HeaderRs.GGUFHeader.read
  simp only [h0, bindOk]
  rw [if_neg (show ¬([71, 71, 85, 70] ≠ ([71, 71, 85, 70] : List Nat)) from
    fun h => h rfl)]
  simp only [h1, bindOk]
  rw [if_neg (show ¬((3 : Nat) ≠ 3) from fun h => h rfl)]
  simp only [h2, bindOk, h3, hkvs, hget, Option.getD_some]
  rfl

/-- **C6.** With a version-3 file declaring `general.alignment` as `UInt32`:
value 4 (indeed any value < 8) fails header decode with `InvalidAlignment`;
value 8 (any value ≥ 8) succeeds with that alignment; and with no
`general.alignment` key the decoded header's alignment field is 32. -/
theorem C6_alignment_rule :
    (∀ a, a < 8 → HeaderRs.GGUFHeader.read (alignFile a) =
      .error (.invalidAlignment a)) ∧
    (∀ a, 8 ≤ a → a < 2 ^ 32 → HeaderRs.GGUFHeader.read (alignFile a) =
      .ok (⟨3, 0, [("general.alignment", .uint32 a)], a⟩, [])) ∧
    HeaderRs.GGUFHeader.read ([71, 71, 85, 70] ++ enc32 3 ++ enc64 0 ++ enc64 0) =
      .ok (⟨3, 0, HeaderRs.Metadata.new, 32⟩, []) := by
  refine ⟨?_, ?_, by rfl⟩
  · intro a h8
    rw [HeaderRs.read_alignFile a (by omega), if_pos h8]
  · intro a h8 ha
    rw [HeaderRs.read_alignFile a ha, if_neg (by omega)]

/-- Witness for C6 at the claim's concrete values 4 and 8. -/
theorem C6_alignment_rule_witness :
    HeaderRs.GGUFHeader.read (alignFile 4) = .error (.invalidAlignment 4) ∧
    HeaderRs.GGUFHeader.read (alignFile 8) =
      .ok (⟨3, 0, [("general.alignment", .uint32 8)], 8⟩, []) :=
  ⟨C6_alignment_rule.1 4 (by norm_num),
   C6_alignment_rule.2.1 8 (by norm_num) (by norm_num)⟩


/-! ## Claim C7: `extract_model_config` required fields -/

/-- **C7.** `extract_model_config` fails with "Missing general.architecture"
when `general.architecture` is absent or not a string; each of the five
required `<arch>.`-prefixed fields fails, when absent or not
`as_u64`-numeric (earlier fields being present), with an error naming that
exact key; and supplying all five yields success with the narrowed values. -/
theorem C7_extract_model_config_required_fields :
    (∀ md : MetaRs.Metadata,
      (md "general.architecture").bind MetaRs.Value.asString = none →
      MetaRs.extractModelConfig md =
        .error (.invalidFormat "Missing general.architecture")) ∧
    (∀ (md : MetaRs.Metadata) (arch : String),
      md "general.architecture" = some (.string arch) →
      ((md (arch ++ ".block_count")).bind MetaRs.Value.asU64 = none →
        MetaRs.extractModelConfig md = .error (.invalidFormat
          ("Missing or invalid field: " ++ (arch ++ ".block_count")))) ∧
      (∀ v1, (md (arch ++ ".block_count")).bind MetaRs.Value.asU64 = some v1 →
        ((md (arch ++ ".context_length")).bind MetaRs.Value.asU64 = none →
          MetaRs.extractModelConfig md = .error (.invalidFormat
            ("Missing or invalid field: " ++ (arch ++ ".context_length")))) ∧
        (∀ v2, (md (arch ++ ".context_length")).bind MetaRs.Value.asU64 = some v2 →
          ((md (arch ++ ".embedding_length")).bind MetaRs.Value.asU64 = none →
            MetaRs.extractModelConfig md = .error (.invalidFormat
              ("Missing or invalid field: " ++ (arch ++ ".embedding_length")))) ∧
          (∀ v3, (md (arch ++ ".embedding_length")).bind MetaRs.Value.asU64 = some v3 →
            ((md (arch ++ ".feed_forward_length")).bind MetaRs.Value.asU64 = none →
              MetaRs.extractModelConfig md = .error (.invalidFormat
                ("Missing or invalid field: " ++ (arch ++ ".feed_forward_length")))) ∧
            (∀ v4, (md (arch ++ ".feed_forward_length")).bind MetaRs.Value.asU64 = some v4 →
              ((md (arch ++ ".attention.head_count")).bind MetaRs.Value.asU64 = none →
                MetaRs.extractModelConfig md = .error (.invalidFormat
                  ("Missing or invalid field: " ++ (arch ++ ".attention.head_count")))) ∧
              (∀ v5, (md (arch ++ ".attention.head_count")).bind MetaRs.Value.asU64 = some v5 →
                MetaRs.extractModelConfig md = .ok
                  { architecture := arch,
                    blockCount := v1 % 2 ^ 32,
                    contextLength := v2 % 2 ^ 32,
                    embeddingLength := v3 % 2 ^ 32,
                    feedForwardLength := v4 % 2 ^ 32,
                    attentionHeadCount := v5 % 2 ^ 32,
                    attentionHeadCountKv := MetaRs.getOptionalU32Field md
                      (arch ++ ".attention.head_count_kv"),
                    attentionKeyLength := MetaRs.getOptionalU32Field md
                      (arch ++ ".attention.key_length"),
                    layerNormEpsilon := MetaRs.getOptionalF32Field md
                      (arch ++ ".attention.layer_norm_rms_epsilon"),
                    ropeFreqBase := MetaRs.getOptionalF32Field md
                      (arch ++ ".rope.freq_base") })))))) := by
  constructor
  · intro md h
    simp only [MetaRs.extractModelConfig, h, bindErr]
  · intro md arch harch
    have harchs : (md "general.architecture").bind MetaRs.Value.asString =
        some arch := by rw [harch]; rfl
    constructor
    · intro h
      simp only [MetaRs.extractModelConfig, harchs, MetaRs.getU32Field, h,
        bindOk, bindErr, pureOk]
    · intro v1 h1
      constructor
      · intro h
        simp only [MetaRs.extractModelConfig, harchs, MetaRs.getU32Field, h1,
          h, bindOk, bindErr, pureOk]
      · intro v2 h2
        constructor
        · intro h
          simp only [MetaRs.extractModelConfig, harchs, MetaRs.getU32Field,
            h1, h2, h, bindOk, bindErr, pureOk]
        · intro v3 h3
          constructor
          · intro h
            simp only [MetaRs.extractModelConfig, harchs, MetaRs.getU32Field,
              h1, h2, h3, h, bindOk, bindErr, pureOk]
          · intro v4 h4
            constructor
            · intro h
              simp only [MetaRs.extractModelConfig, harchs, MetaRs.getU32Field,
                h1, h2, h3, h4, h, bindOk, bindErr, pureOk]
            · intro v5 h5
              simp only [MetaRs.extractModelConfig, harchs, MetaRs.getU32Field,
                h1, h2, h3, h4, h5, bindOk, bindErr, pureOk]

/-- A complete Qwen-style metadata mapping for the C7 witness. -/
def qwenMeta : MetaRs.Metadata := fun k =>
  if k = "general.architecture" then some (.string "qwen3")
  else if k = "qwen3.block_count" then some (.uint32 28)
  else if k = "qwen3.context_length" then some (.uint32 40960)
  else if k = "qwen3.embedding_length" then some (.uint32 1024)
  else if k = "qwen3.feed_forward_length" then some (.uint32 3072)
  else if k = "qwen3.attention.head_count" then some (.uint32 16)
  else none

/-- Witness for C7: the empty mapping fails on the architecture key; a
mapping missing `qwen3.block_count` fails naming it; the complete `qwenMeta`
extracts successfully. -/
theorem C7_extract_model_config_required_fields_witness :
    MetaRs.extractModelConfig (fun _ => none) =
      .error (.invalidFormat "Missing general.architecture") ∧
    MetaRs.extractModelConfig
        (fun k => if k = "general.architecture"
          then some (.string "qwen3") else none) =
      .error (.invalidFormat "Missing or invalid field: qwen3.block_count") ∧
    MetaRs.extractModelConfig qwenMeta =
      .ok { architecture := "qwen3", blockCount := 28, contextLength := 40960,
            embeddingLength := 1024, feedForwardLength := 3072,
            attentionHeadCount := 16, attentionHeadCountKv := none,
            attentionKeyLength := none, layerNormEpsilon := none,
            ropeFreqBase := none } := by
  refine ⟨C7_extract_model_config_required_fields.1 (fun _ => none) rfl, ?_, ?_⟩
  · have h := (C7_extract_model_config_required_fields.2
      (fun k => if k = "general.architecture"
        then some (.string "qwen3") else none) "qwen3" (by rfl)).1 (by rfl)
    simpa using h
  · have h := ((((((C7_extract_model_config_required_fields.2 qwenMeta "qwen3"
      (by rfl)).2 28 (by rfl)).2 40960 (by rfl)).2 1024 (by rfl)).2 3072
      (by rfl)).2 16 (by rfl))
    norm_num at h
    convert h using 2


/-! ## Claim C1: string infrastructure for tensor-name distinctness -/

theorem digitChar_inj (a b : Nat) (ha : a < 10) (hb : b < 10)
    (h : Char.ofNat (48 + a) = Char.ofNat (48 + b)) : a = b := by
  interval_cases a <;> interval_cases b <;>
    first
      | rfl
      | exact absurd h (by decide)

theorem decChars_ne_nil (n : Nat) : decChars n ≠ [] := by
  rw [decChars]
  split <;> simp

theorem decChars_digit (n : Nat) : ∀ c ∈ decChars n, 48 ≤ c.toNat ∧ c.toNat ≤ 57 := by
  induction n using Nat.strong_induction_on with
  | _ n ih =>
    intro c hc
    rw [decChars] at hc
    split at hc
    · next h =>
        simp only [List.mem_singleton] at hc
        subst hc
        interval_cases n <;> exact (by decide)
    · next h =>
        rcases List.mem_append.mp hc with h1 | h1
        · exact ih (n / 10) (Nat.div_lt_self (by omega) (by omega)) c h1
        · simp only [List.mem_singleton] at h1
          subst h1
          have hm : n % 10 < 10 := Nat.mod_lt _ (by omega)
          interval_cases h : n % 10 <;> exact (by decide)

theorem decChars_no_dot (n : Nat) : ∀ c ∈ decChars n, c ≠ '.' := by
  intro c hc h
  subst h
  have := decChars_digit n _ hc
  revert this
  decide

theorem decChars_eq_lt (n : Nat) (h : n < 10) :
    decChars n = [Char.ofNat (48 + n)] := by
  rw [decChars]
  exact dif_pos h

theorem decChars_eq_ge (n : Nat) (h : ¬n < 10) :
    decChars n = decChars (n / 10) ++ [Char.ofNat (48 + n % 10)] := by
  rw [decChars]
  exact dif_neg h

theorem decChars_inj : ∀ m n : Nat, decChars m = decChars n → m = n := by
  intro m
  induction m using Nat.strong_induction_on with
  | _ m ih =>
    intro n h
    by_cases hm : m < 10 <;> by_cases hn : n < 10
    · rw [decChars_eq_lt m hm, decChars_eq_lt n hn] at h
      simp only [List.cons.injEq, and_true] at h
      exact digitChar_inj m n hm hn h
    · exfalso
      rw [decChars_eq_lt m hm, decChars_eq_ge n hn] at h
      have hl := congrArg List.length h
      rw [List.length_append, List.length_singleton, List.length_singleton] at hl
      have hp := List.length_pos.mpr (decChars_ne_nil (n / 10))
      omega
    · exfalso
      rw [decChars_eq_ge m hm, decChars_eq_lt n hn] at h
      have hl := congrArg List.length h
      rw [List.length_append, List.length_singleton, List.length_singleton] at hl
      have hp := List.length_pos.mpr (decChars_ne_nil (m / 10))
      omega
    · rw [decChars_eq_ge m hm, decChars_eq_ge n hn] at h
      obtain ⟨h1, h2⟩ := List.append_inj' h (by simp)
      have hdiv : m / 10 = n / 10 :=
        ih (m / 10) (Nat.div_lt_self (by omega) (by omega)) (n / 10) h1
      simp only [List.cons.injEq, and_true] at h2
      have hmod : m % 10 = n % 10 :=
        digitChar_inj _ _ (Nat.mod_lt _ (by omega)) (Nat.mod_lt _ (by omega)) h2
      omega

/-- Splitting `a ++ s = b ++ t` when `a, b` are dot-free and `s, t` start
with a dot. -/
theorem noDotSplit : ∀ (a b s t : List Char), (∀ c ∈ a, c ≠ '.') →
    (∀ c ∈ b, c ≠ '.') → s.head? = some '.' → t.head? = some '.' →
    a ++ s = b ++ t → a = b ∧ s = t := by
  intro a
  induction a with
  | nil =>
      intro b s t _ hb hs ht h
      cases b with
      | nil => exact ⟨rfl, h⟩
      | cons y b' =>
          exfalso
          simp only [List.nil_append, List.cons_append] at h
          subst h
          simp only [List.head?_cons, Option.some.injEq] at hs
          exact hb y (by simp) hs
  | cons x a' iha =>
      intro b s t ha hb hs ht h
      cases b with
      | nil =>
          exfalso
          simp only [List.cons_append, List.nil_append] at h
          rw [← h] at ht
          simp only [List.head?_cons, Option.some.injEq] at ht
          exact ha x (by simp) ht
      | cons y b' =>
          simp only [List.cons_append, List.cons.injEq] at h
          obtain ⟨hxy, h'⟩ := h
          obtain ⟨h1, h2⟩ := iha b' s t (fun c hc => ha c (by simp [hc]))
            (fun c hc => hb c (by simp [hc])) hs ht h'
          exact ⟨by rw [hxy, h1], h2⟩

theorem string_data_append (s t : String) : (s ++ t).data = s.data ++ t.data := rfl

theorem blkName_data (i : Nat) (s : String) :
    (blkName i s).data = 'b' :: 'l' :: 'k' :: '.' :: (decChars i ++ s.data) := by
  show ("blk.".data ++ decChars i) ++ s.data = _
  rfl

/-- Injectivity of the per-layer names over dot-initial suffixes. -/
theorem blkName_inj (i j : Nat) (s t : String) (hs : s.data.head? = some '.')
    (ht : t.data.head? = some '.') (h : blkName i s = blkName j t) :
    i = j ∧ s = t := by
  have hd := congrArg String.data h
  rw [blkName_data, blkName_data] at hd
  simp only [List.cons.injEq, true_and] at hd
  obtain ⟨h1, h2⟩ := noDotSplit (decChars i) (decChars j) s.data t.data
    (decChars_no_dot i) (decChars_no_dot j) hs ht hd
  refine ⟨decChars_inj i j h1, ?_⟩
  cases s
  cases t
  exact congrArg String.mk h2

theorem blkName_ne_of_suffix_ne (i : Nat) (s t : String)
    (hs : s.data.head? = some '.') (ht : t.data.head? = some '.')
    (hst : s ≠ t) : blkName i s ≠ blkName i t :=
  fun h => hst (blkName_inj i i s t hs ht h).2

theorem blkName_ne_of_idx_ne (i j : Nat) (s t : String)
    (hs : s.data.head? = some '.') (ht : t.data.head? = some '.')
    (hij : i ≠ j) : blkName i s ≠ blkName j t :=
  fun h => hij (blkName_inj i j s t hs ht h).1

theorem blkName_ne_token_embd (i : Nat) (s : String) :
    blkName i s ≠ "token_embd.weight" := by
  intro h
  have hd : (blkName i s).data.head? = "token_embd.weight".data.head? := by rw [h]
  rw [blkName_data] at hd
  simp only [List.head?_cons] at hd
  exact absurd hd (by decide)

theorem blkName_ne_output (i : Nat) (s : String) :
    blkName i s ≠ "output.weight" := by
  intro h
  have hd : (blkName i s).data.head? = "output.weight".data.head? := by rw [h]
  rw [blkName_data] at hd
  simp only [List.head?_cons] at hd
  exact absurd hd (by decide)

theorem blkName_ne_output_norm (i : Nat) (s : String) :
    blkName i s ≠ "output_norm.weight" := by
  intro h
  have hd : (blkName i s).data.head? = "output_norm.weight".data.head? := by rw [h]
  rw [blkName_data] at hd
  simp only [List.head?_cons] at hd
  exact absurd hd (by decide)


/-! ### The builder consumes distinct names -/

theorem TensorMap.erase_apply_ne (m : MetaRs.TensorMap) (n nm : String)
    (h : nm ≠ n) : m.erase n nm = m nm := if_neg h

theorem buildTransformerBlock_ok (i : Nat) (m : MetaRs.TensorMap)
    (hreq : ∀ s ∈ requiredSuffixes, (m (blkName i s)).isSome) :
    ∃ b m', MetaRs.buildTransformerBlock i m = .ok (b, m') ∧
      b.layerIndex = i ∧
      ∀ nm, (∀ s ∈ allSuffixes, nm ≠ blkName i s) → m' nm = m nm := by
  have hne : ∀ s t : String, s.data.head? = some '.' → t.data.head? = some '.' →
      s ≠ t → blkName i s ≠ blkName i t := blkName_ne_of_suffix_ne i
  obtain ⟨t1, h1⟩ := Option.isSome_iff_exists.mp (hreq ".attn_q.weight" (by decide))
  obtain ⟨t2, h2⟩ := Option.isSome_iff_exists.mp (hreq ".attn_k.weight" (by decide))
  obtain ⟨t3, h3⟩ := Option.isSome_iff_exists.mp (hreq ".attn_v.weight" (by decide))
  obtain ⟨t4, h4⟩ := Option.isSome_iff_exists.mp (hreq ".attn_output.weight" (by decide))
  obtain ⟨t9, h9⟩ := Option.isSome_iff_exists.mp (hreq ".ffn_up.weight" (by decide))
  obtain ⟨t10, h10⟩ := Option.isSome_iff_exists.mp (hreq ".ffn_down.weight" (by decide))
  have l2 : (m.erase (blkName i ".attn_q.weight")) (blkName i ".attn_k.weight") =
      some t2 := by
    rw [TensorMap.erase_apply_ne _ _ _ (hne _ _ (by decide) (by decide) (by decide))]
    exact h2
  have l3 : ((m.erase (blkName i ".attn_q.weight")).erase
      (blkName i ".attn_k.weight")) (blkName i ".attn_v.weight") = some t3 := by
    rw [TensorMap.erase_apply_ne _ _ _ (hne _ _ (by decide) (by decide) (by decide)),
      TensorMap.erase_apply_ne _ _ _ (hne _ _ (by decide) (by decide) (by decide))]
    exact h3
  have l4 : (((m.erase (blkName i ".attn_q.weight")).erase
      (blkName i ".attn_k.weight")).erase (blkName i ".attn_v.weight"))
      (blkName i ".attn_output.weight") = some t4 := by
    rw [TensorMap.erase_apply_ne _ _ _ (hne _ _ (by decide) (by decide) (by decide)),
      TensorMap.erase_apply_ne _ _ _ (hne _ _ (by decide) (by decide) (by decide)),
      TensorMap.erase_apply_ne _ _ _ (hne _ _ (by decide) (by decide) (by decide))]
    exact h4
  have l9 : ((((((((m.erase (blkName i ".attn_q.weight")).erase
      (blkName i ".attn_k.weight")).erase (blkName i ".attn_v.weight")).erase
      (blkName i ".attn_output.weight")).erase (blkName i ".attn_q_norm.weight")).erase
      (blkName i ".attn_k_norm.weight")).erase (blkName i ".attn_norm.weight")).erase
      (blkName i ".ffn_gate.weight")) (blkName i ".ffn_up.weight") = some t9 := by
    rw [TensorMap.erase_apply_ne _ _ _ (hne _ _ (by decide) (by decide) (by decide)),
      TensorMap.erase_apply_ne _ _ _ (hne _ _ (by decide) (by decide) (by decide)),
      TensorMap.erase_apply_ne _ _ _ (hne _ _ (by decide) (by decide) (by decide)),
      TensorMap.erase_apply_ne _ _ _ (hne _ _ (by decide) (by decide) (by decide)),
      TensorMap.erase_apply_ne _ _ _ (hne _ _ (by decide) (by decide) (by decide)),
      TensorMap.erase_apply_ne _ _ _ (hne _ _ (by decide) (by decide) (by decide)),
      TensorMap.erase_apply_ne _ _ _ (hne _ _ (by decide) (by decide) (by decide)),
      TensorMap.erase_apply_ne _ _ _ (hne _ _ (by decide) (by decide) (by decide))]
    exact h9
  have l10 : (((((((((m.erase (blkName i ".attn_q.weight")).erase
      (blkName i ".attn_k.weight")).erase (blkName i ".attn_v.weight")).erase
      (blkName i ".attn_output.weight")).erase (blkName i ".attn_q_norm.weight")).erase
      (blkName i ".attn_k_norm.weight")).erase (blkName i ".attn_norm.weight")).erase
      (blkName i ".ffn_gate.weight")).erase (blkName i ".ffn_up.weight"))
      (blkName i ".ffn_down.weight") = some t10 := by
    rw [TensorMap.erase_apply_ne _ _ _ (hne _ _ (by decide) (by decide) (by decide)),
      TensorMap.erase_apply_ne _ _ _ (hne _ _ (by decide) (by decide) (by decide)),
      TensorMap.erase_apply_ne _ _ _ (hne _ _ (by decide) (by decide) (by decide)),
      TensorMap.erase_apply_ne _ _ _ (hne _ _ (by decide) (by decide) (by decide)),
      TensorMap.erase_apply_ne _ _ _ (hne _ _ (by decide) (by decide) (by decide)),
      TensorMap.erase_apply_ne _ _ _ (hne _ _ (by decide) (by decide) (by decide)),
      TensorMap.erase_apply_ne _ _ _ (hne _ _ (by decide) (by decide) (by decide)),
      TensorMap.erase_apply_ne _ _ _ (hne _ _ (by decide) (by decide) (by decide)),
      TensorMap.erase_apply_ne _ _ _ (hne _ _ (by decide) (by decide) (by decide))]
    exact h10
  refine ⟨⟨i, ⟨t1, t2, t3, t4, ((((m.erase (blkName i ".attn_q.weight")).erase (blkName i ".attn_k.weight")).erase (blkName i ".attn_v.weight")).erase (blkName i ".attn_output.weight")) (blkName i ".attn_q_norm.weight"), (((((m.erase (blkName i ".attn_q.weight")).erase (blkName i ".attn_k.weight")).erase (blkName i ".attn_v.weight")).erase (blkName i ".attn_output.weight")).erase (blkName i ".attn_q_norm.weight")) (blkName i ".attn_k_norm.weight"), ((((((m.erase (blkName i ".attn_q.weight")).erase (blkName i ".attn_k.weight")).erase (blkName i ".attn_v.weight")).erase (blkName i ".attn_output.weight")).erase (blkName i ".attn_q_norm.weight")).erase (blkName i ".attn_k_norm.weight")) (blkName i ".attn_norm.weight")⟩, ⟨(((((((m.erase (blkName i ".attn_q.weight")).erase (blkName i ".attn_k.weight")).erase (blkName i ".attn_v.weight")).erase (blkName i ".attn_output.weight")).erase (blkName i ".attn_q_norm.weight")).erase (blkName i ".attn_k_norm.weight")).erase (blkName i ".attn_norm.weight")) (blkName i ".ffn_gate.weight"), t9, t10, ((((((((((m.erase (blkName i ".attn_q.weight")).erase (blkName i ".attn_k.weight")).erase (blkName i ".attn_v.weight")).erase (blkName i ".attn_output.weight")).erase (blkName i ".attn_q_norm.weight")).erase (blkName i ".attn_k_norm.weight")).erase (blkName i ".attn_norm.weight")).erase (blkName i ".ffn_gate.weight")).erase (blkName i ".ffn_up.weight")).erase (blkName i ".ffn_down.weight")) (blkName i ".ffn_norm.weight")⟩⟩,
    (((((((((((m.erase (blkName i ".attn_q.weight")).erase (blkName i ".attn_k.weight")).erase (blkName i ".attn_v.weight")).erase (blkName i ".attn_output.weight")).erase (blkName i ".attn_q_norm.weight")).erase (blkName i ".attn_k_norm.weight")).erase (blkName i ".attn_norm.weight")).erase (blkName i ".ffn_gate.weight")).erase (blkName i ".ffn_up.weight")).erase (blkName i ".ffn_down.weight")).erase (blkName i ".ffn_norm.weight")),
    ?_, rfl, ?_⟩
  · simp only [MetaRs.buildTransformerBlock, MetaRs.takeTensor,
      MetaRs.tryTakeTensor, h1, l2, l3, l4, l9, l10, bindOk, pureOk]
  · intro nm hnm
    rw [TensorMap.erase_apply_ne _ _ _ (hnm _ (by decide)),
      TensorMap.erase_apply_ne _ _ _ (hnm _ (by decide)),
      TensorMap.erase_apply_ne _ _ _ (hnm _ (by decide)),
      TensorMap.erase_apply_ne _ _ _ (hnm _ (by decide)),
      TensorMap.erase_apply_ne _ _ _ (hnm _ (by decide)),
      TensorMap.erase_apply_ne _ _ _ (hnm _ (by decide)),
      TensorMap.erase_apply_ne _ _ _ (hnm _ (by decide)),
      TensorMap.erase_apply_ne _ _ _ (hnm _ (by decide)),
      TensorMap.erase_apply_ne _ _ _ (hnm _ (by decide)),
      TensorMap.erase_apply_ne _ _ _ (hnm _ (by decide)),
      TensorMap.erase_apply_ne _ _ _ (hnm _ (by decide))]

theorem head_dot_required : ∀ s ∈ requiredSuffixes, s.data.head? = some '.' := by
  decide

theorem head_dot_all : ∀ s ∈ allSuffixes, s.data.head? = some '.' := by
  decide

theorem buildBlocks_ok : ∀ (n idx : Nat) (m : MetaRs.TensorMap),
    (∀ k, k < n → ∀ s ∈ requiredSuffixes, (m (blkName (idx + k) s)).isSome) →
    ∃ blocks m', MetaRs.buildBlocks idx n m = .ok (blocks, m') ∧
      blocks.length = n ∧
      (∀ j (hj : j < blocks.length), (blocks.get ⟨j, hj⟩).layerIndex = idx + j) ∧
      ∀ nm, (∀ k, k < n → ∀ s ∈ allSuffixes, nm ≠ blkName (idx + k) s) →
        m' nm = m nm := by
  intro n
  induction n with
  | zero =>
      intro idx m _
      exact ⟨[], m, rfl, rfl, fun j hj => absurd hj (by simp), fun nm _ => rfl⟩
  | succ n ih =>
      intro idx m h
      obtain ⟨b, m1, heq1, hidx1, hagree1⟩ := buildTransformerBlock_ok idx m
        (by
          have h0 := h 0 (by omega)
          simpa using h0)
      obtain ⟨blocks, m2, heq2, hlen2, hidxs2, hagree2⟩ := ih (idx + 1) m1
        (by
          intro k hk s hs
          rw [hagree1 (blkName (idx + 1 + k) s)
            (fun t ht => blkName_ne_of_idx_ne _ _ _ _
              (head_dot_required s hs) (head_dot_all t ht) (by omega))]
          have := h (k + 1) (by omega) s hs
          rwa [show idx + (k + 1) = idx + 1 + k by omega] at this)
      refine ⟨b :: blocks, m2, ?_, by simp [hlen2], ?_, ?_⟩
      · simp only [MetaRs.buildBlocks, heq1, bindOk, heq2, pureOk]
      · intro j hj
        cases j with
        | zero => simpa using hidx1
        | succ j =>
            have := hidxs2 j (by simpa using hj)
            simp only [List.get_cons_succ, this]
            omega
      · intro nm hnm
        rw [hagree2 nm (fun k hk s hs => by
          have h' := hnm (k + 1) (by omega) s hs
          rwa [show idx + (k + 1) = idx + 1 + k from by omega] at h')]
        exact hagree1 nm (fun s hs => by
          have h' := hnm 0 (by omega) s hs
          rwa [Nat.add_zero] at h')

/-- **C1.** `ModelBuilder::build` fails naming `token_embd.weight` (the
spec's `TensorNotFound` category, realized as
`InvalidFormat "Required tensor 'token_embd.weight' not found"`) whenever
that key is absent from the flat tensor mapping; and on every mapping
containing all required tensors it succeeds with exactly
`config.block_count` transformer blocks, one per layer index
`0 .. block_count - 1` (the claim's `block_count = 28` instance is the
witness). -/
theorem C1_model_builder_build (cfg : MetaRs.ModelConfig) (m : MetaRs.TensorMap) :
    (m "token_embd.weight" = none →
      MetaRs.build cfg m =
        .error (.invalidFormat "Required tensor 'token_embd.weight' not found")) ∧
    ((∀ nm ∈ requiredNames cfg.blockCount, (m nm).isSome) →
      ∃ model, MetaRs.build cfg m = .ok model ∧
        model.transformerBlocks.length = cfg.blockCount ∧
        ∀ j (hj : j < model.transformerBlocks.length),
          (model.transformerBlocks.get ⟨j, hj⟩).layerIndex = j) := by
  constructor
  · intro h
    simp only [MetaRs.build, MetaRs.buildEmbeddings, MetaRs.takeTensor, h,
      bindOk, bindErr, pureOk]
    rfl
  · intro h
    obtain ⟨t0, h0⟩ := Option.isSome_iff_exists.mp
      (h "token_embd.weight" (by simp [requiredNames]))
    have heqEmb : MetaRs.buildEmbeddings m =
        .ok (⟨t0⟩, m.erase "token_embd.weight") := by
      simp only [MetaRs.buildEmbeddings, MetaRs.takeTensor, h0, bindOk, pureOk]
    obtain ⟨blocks, m2, heq2, hlen2, hidxs2, hagree2⟩ :=
      buildBlocks_ok cfg.blockCount 0 (m.erase "token_embd.weight")
        (by
          intro k hk s hs
          rw [Nat.zero_add,
            TensorMap.erase_apply_ne _ _ _ (blkName_ne_token_embd k s)]
          exact h (blkName k s) (List.mem_cons_of_mem _ (List.mem_append_left _
            (List.mem_flatMap.mpr ⟨k, List.mem_range.mpr hk,
              List.mem_map.mpr ⟨s, hs, rfl⟩⟩))))
    obtain ⟨tout, hto⟩ := Option.isSome_iff_exists.mp (show (m2 "output.weight").isSome by
      rw [hagree2 "output.weight" (fun k hk s hs =>
          (blkName_ne_output (0 + k) s).symm),
        TensorMap.erase_apply_ne _ _ _ (by decide)]
      exact h "output.weight" (List.mem_cons_of_mem _
        (List.mem_append_right _ (List.mem_singleton.mpr rfl))))
    have heqOut : MetaRs.buildOutputLayer m2 =
        .ok (⟨tout, (m2.erase "output.weight") "output_norm.weight"⟩,
          (m2.erase "output.weight").erase "output_norm.weight") := by
      simp only [MetaRs.buildOutputLayer, MetaRs.takeTensor,
        MetaRs.tryTakeTensor, hto, bindOk, pureOk]
    refine ⟨⟨cfg.architecture, cfg, ⟨t0⟩, blocks,
      ⟨tout, (m2.erase "output.weight") "output_norm.weight"⟩⟩, ?_, hlen2, ?_⟩
    · simp only [MetaRs.build, heqEmb, bindOk, heq2, heqOut, pureOk]
    · intro j hj
      have := hidxs2 j hj
      simpa using this


/-- Witness for C1: with `block_count = 28`, the empty mapping fails naming
`token_embd.weight`, and the everything-present mapping yields exactly 28
blocks with layer indices `0..27`. -/
theorem C1_model_builder_build_witness :
    MetaRs.build cfg28 (fun _ => none) =
      .error (.invalidFormat "Required tensor 'token_embd.weight' not found") ∧
    ∃ model, MetaRs.build cfg28 (fun _ => some demoTensor) = .ok model ∧
      model.transformerBlocks.length = 28 ∧
      ∀ j (hj : j < model.transformerBlocks.length),
        (model.transformerBlocks.get ⟨j, hj⟩).layerIndex = j :=
  ⟨(C1_model_builder_build cfg28 (fun _ => none)).1 rfl,
   (C1_model_builder_build cfg28 (fun _ => some demoTensor)).2
     (fun _ _ => rfl)⟩

end Gguf
